import Mathlib

/-!
# Verification of the device reconciliation and lifecycle logic of
# terraform-provider-proxmox

This development is a shallow embedding of the Go sources
`proxmox/resource_vm_qemu.go`, `proxmox/qemu_structure.go` and the unnamed
companion file of the same package.

Modelling conventions:

* A Go `interface{}` value stored in a device record is modelled by `GoValue`.
  Go `float64` values are modelled by exact rationals (`ℚ`); the development
  never relies on rounding behaviour of IEEE doubles.
* A Go `map` is modelled by an association list (`lookupA` / `insertA`).
  Go maps have unique keys; theorems that need this carry `Nodup` hypotheses
  on the key lists.  Go's map iteration order is unspecified; the association
  list order plays the role of the iteration order, so theorems quantifying
  over the list quantify over all iteration orders.
* A Go `panic` (failed type assertion, out-of-range index) is modelled by
  `Option.none` / a dedicated `panic` result constructor.
-/

set_option autoImplicit false

namespace ProxmoxTF

/-- A Go `interface{}` value as it occurs in device configuration maps.
`VFloat` models Go `float64` by an exact rational. -/
inductive GoValue where
  | VInt : Int → GoValue
  | VBool : Bool → GoValue
  | VStr : String → GoValue
  | VFloat : ℚ → GoValue
deriving DecidableEq, Repr

/-- One device record: Go `map[string]interface{}`. -/
abbrev DeviceConf := List (String × GoValue)

/-- Model of `pxapi.QemuDevices`: Go `map[int]map[string]interface{}`, keyed by the
integer device slot id. -/
abbrev QemuDevices := List (Int × DeviceConf)

section AssocToolkit

variable {α : Type} {β : Type} [DecidableEq α]

/-- Go map read `m[k]`: first binding of `k`, if any. -/
def lookupA : List (α × β) → α → Option β
  | [], _ => none
  | (k, v) :: rest, k1 => if k1 = k then some v else lookupA rest k1

/-- Go map write `m[k] = v`: replace the first binding of `k`, or append. -/
def insertA : List (α × β) → α → β → List (α × β)
  | [], k, v => [(k, v)]
  | (k0, v0) :: rest, k, v =>
      if k0 = k then (k, v) :: rest else (k0, v0) :: insertA rest k v

theorem lookupA_insertA (m : List (α × β)) (k : α) (v : β) (k1 : α) :
    lookupA (insertA m k v) k1 = if k1 = k then some v else lookupA m k1 := by
  induction m with
  | nil => simp [insertA, lookupA]
  | cons p rest ih =>
    obtain ⟨k0, v0⟩ := p
    by_cases hk : k0 = k
    · subst hk
      by_cases h1 : k1 = k0 <;> simp [insertA, lookupA, h1]
    · by_cases h1 : k1 = k0
      · subst h1
        simp [insertA, lookupA, hk]
      · simp [insertA, lookupA, hk, h1, ih]

theorem mem_of_lookupA {m : List (α × β)} {k : α} {v : β}
    (h : lookupA m k = some v) : (k, v) ∈ m := by
  induction m with
  | nil => simp [lookupA] at h
  | cons p rest ih =>
    obtain ⟨k0, v0⟩ := p
    by_cases hk : k = k0
    · subst hk
      simp [lookupA] at h
      subst h
      exact List.mem_cons_self _ _
    · simp [lookupA, hk] at h
      exact List.mem_cons_of_mem _ (ih h)

theorem lookupA_eq_none_of_not_mem {m : List (α × β)} {k : α}
    (h : k ∉ m.map Prod.fst) : lookupA m k = none := by
  induction m with
  | nil => rfl
  | cons p rest ih =>
    obtain ⟨k0, v0⟩ := p
    simp only [List.map_cons, List.mem_cons, not_or] at h
    simp [lookupA, h.1, ih h.2]

theorem lookupA_isSome_of_mem {m : List (α × β)} {k : α} {v : β}
    (h : (k, v) ∈ m) : (lookupA m k).isSome = true := by
  induction m with
  | nil => simp at h
  | cons p rest ih =>
    obtain ⟨k0, v0⟩ := p
    by_cases hk : k = k0
    · simp [lookupA, hk]
    · simp at h
      rcases h with h | h
      · exact absurd h.1 hk
      · simp [lookupA, hk, ih h]

theorem mem_insertA {m : List (α × β)} {k : α} {v : β} {q : α × β}
    (h : q ∈ insertA m k v) : q ∈ m ∨ q = (k, v) := by
  induction m with
  | nil =>
    simp [insertA] at h
    exact Or.inr h
  | cons p rest ih =>
    obtain ⟨k0, v0⟩ := p
    by_cases hk : k0 = k
    · subst hk
      simp [insertA] at h
      rcases h with h | h
      · exact Or.inr (by simp [h])
      · exact Or.inl (List.mem_cons_of_mem _ h)
    · simp [insertA, hk] at h
      rcases h with h | h
      · exact Or.inl (by simp [h])
      · rcases ih h with h1 | h1
        · exact Or.inl (List.mem_cons_of_mem _ h1)
        · exact Or.inr h1

theorem insertA_keys_nodup {m : List (α × β)} {k : α} {v : β}
    (h : (m.map Prod.fst).Nodup) : ((insertA m k v).map Prod.fst).Nodup := by
  induction m with
  | nil => simp [insertA]
  | cons p rest ih =>
    obtain ⟨k0, v0⟩ := p
    simp only [List.map_cons, List.nodup_cons] at h
    by_cases hk : k0 = k
    · subst hk
      simpa [insertA] using h
    · have hmem : k0 ∉ (insertA rest k v).map Prod.fst := by
        intro hm
        rw [List.mem_map] at hm
        obtain ⟨q, hq, hfst⟩ := hm
        rcases mem_insertA hq with h1 | h1
        · exact h.1 (hfst ▸ List.mem_map_of_mem Prod.fst h1)
        · exact hk (by rw [h1] at hfst; exact hfst.symm)
      simp only [insertA, if_neg hk, List.map_cons, List.nodup_cons]
      exact ⟨hmem, ih h.2⟩

end AssocToolkit

/-! ## Device reconciliation (`qemu_structure.go` / `resource_vm_qemu.go`) -/

/-- The inner key loop of `updateDevicesDefaults`: for each declared
attribute, fill it into the active record only when the active record does
not already hold that key. -/
def fillDefaults (active conf : DeviceConf) : DeviceConf :=
  conf.foldl
    (fun acc kv =>
      match lookupA acc kv.1 with
      | some _ => acc
      | none => insertA acc kv.1 kv.2)
    active

/-- The function `updateDevicesDefaults` (identical in `qemu_structure.go`,
`resource_vm_qemu.go` and the unnamed file): for every declared device,
install the declared record when the API reported none for that slot id,
then fill every missing declared attribute with its declared value.
(When the slot id is absent from the active map the Go code aliases
`activeDevicesMap[deviceID]` to the declared record before running the key
loop, which then fills nothing; `fillDefaults conf conf = conf` renders the
same behaviour.) -/
def updateDeviceStep (act : QemuDevices) (p : Int × DeviceConf) : QemuDevices :=
  insertA act p.1
    (fillDefaults
      (match lookupA act p.1 with
        | none => p.2
        | some a => a)
      p.2)

def updateDevicesDefaults (activeDevicesMap configDevicesMap : QemuDevices) :
    QemuDevices :=
  configDevicesMap.foldl updateDeviceStep activeDevicesMap

/-- Read the integer slot id of a record (`setMap["id"].(int)`); `none`
models the Go panic when the key is absent or not an `int`.  The Terraform
schema declares `id` as a required `TypeInt`, so `none` never occurs on
schema-validated input. -/
def getId (conf : DeviceConf) : Option Int :=
  match lookupA conf "id" with
  | some (GoValue.VInt n) => some n
  | _ => none

def setToMapStep (m : QemuDevices) (conf : DeviceConf) : QemuDevices :=
  match getId conf with
  | some setID => insertA m setID conf
  | none => m

/-- The function `DevicesSetToMap` (`resource_vm_qemu.go` and the unnamed file): key each
record of the set by its integer id; later records win.  A record whose id
is not an integer would make Go panic and is skipped here; theorems about
ids always assume `getId` succeeds. -/
def DevicesSetToMap (devicesList : List DeviceConf) : QemuDevices :=
  devicesList.foldl setToMapStep []

/-- The function `expandDevices` (`qemu_structure.go`): byte-identical to
`DevicesSetToMap`. -/
def expandDevices (devicesList : List DeviceConf) : QemuDevices :=
  devicesList.foldl setToMapStep []

theorem expandDevices_eq_DevicesSetToMap : expandDevices = DevicesSetToMap := rfl

/-- Model of `strconv.ParseBool (strconv.Itoa n)`: `strconv.Itoa` yields a decimal
numeral, and of those `strconv.ParseBool` accepts exactly "0" and "1". -/
def goParseBoolOfInt (n : Int) : Option Bool :=
  if n = 0 then some false else if n = 1 then some true else none

/-- One step of the merge loop of `UpdateDevicesSet`: the nested type switch
on `setConfMap[key]` (declared value) and `value` (reconciled value).  When
the declared value is a `bool` and the reconciled value an `int`, the int is
normalised through `strconv.Itoa`/`strconv.ParseBool`; on a parse error the
declared value is left in place.  Any non-`bool` declared value is
overwritten by the reconciled value as-is. -/
def mergeStep (acc : DeviceConf) (kv : String × GoValue) : DeviceConf :=
  match lookupA acc kv.1 with
  | some (GoValue.VBool _) =>
    match kv.2 with
    | GoValue.VInt n =>
      match goParseBoolOfInt n with
      | some b => insertA acc kv.1 (GoValue.VBool b)
      | none => acc
    | GoValue.VBool b => insertA acc kv.1 (GoValue.VBool b)
    | _ => acc
  | _ => insertA acc kv.1 kv.2

/-- The per-record body of `UpdateDevicesSet`: fold the reconciled record's
attributes into the declared record. -/
def mergeRecord (setConf activeConf : DeviceConf) : DeviceConf :=
  activeConf.foldl mergeStep setConf

/-- One step of the copy loop of `flattenDevices`: `setConfMap[key] = value`
with no type coercion. -/
def copyStep (acc : DeviceConf) (kv : String × GoValue) : DeviceConf :=
  insertA acc kv.1 kv.2

/-- The per-record body of `flattenDevices`. -/
def copyRecord (setConf activeConf : DeviceConf) : DeviceConf :=
  activeConf.foldl copyStep setConf

/-- The function `UpdateDevicesSet` (`resource_vm_qemu.go` and the unnamed file): build
the declared map, reconcile it with the API-reported map, then rebuild each
record of the set from the reconciled attributes with the bool/int
normalisation of `mergeStep`.  The `schema.Set` is modelled by the list of
its records; `activeDevicesMap[deviceID]` for a missing id is Go's nil map,
over which the key loop does not iterate (`getD []`). -/
def UpdateDevicesSet (devicesList : List DeviceConf)
    (devicesMap : QemuDevices) : List DeviceConf :=
  let configDevicesMap := DevicesSetToMap devicesList
  let activeDevicesMap := updateDevicesDefaults devicesMap configDevicesMap
  devicesList.map
    (fun setConf =>
      match getId setConf with
      | some deviceID =>
          mergeRecord setConf ((lookupA activeDevicesMap deviceID).getD [])
      | none => setConf)

/-- The function `flattenDevices` (`qemu_structure.go`): same structure as
`UpdateDevicesSet` but every reconciled attribute is copied as-is. -/
def flattenDevices (devicesList : List DeviceConf)
    (devicesMap : QemuDevices) : List DeviceConf :=
  let configDevicesMap := expandDevices devicesList
  let activeDevicesMap := updateDevicesDefaults devicesMap configDevicesMap
  devicesList.map
    (fun setConf =>
      match getId setConf with
      | some deviceID =>
          copyRecord setConf ((lookupA activeDevicesMap deviceID).getD [])
      | none => setConf)

/-! ## Lemmas about `fillDefaults` and `updateDevicesDefaults` -/

theorem lookupA_fillDefaults_of_mem {active : DeviceConf} (conf : DeviceConf)
    {k : String} {v : GoValue} (h : lookupA active k = some v) :
    lookupA (fillDefaults active conf) k = some v := by
  induction conf generalizing active with
  | nil => exact h
  | cons kv rest ih =>
    show lookupA (rest.foldl _ _) k = some v
    rcases hkv : lookupA active kv.1 with _ | w
    · have hne : k ≠ kv.1 := fun he => by rw [he, hkv] at h; cases h
      refine ih ?_
      simp only [hkv]
      rw [lookupA_insertA, if_neg hne]
      exact h
    · refine ih ?_
      simpa only [hkv] using h

theorem lookupA_fillDefaults_of_missing {active : DeviceConf} (conf : DeviceConf)
    {k : String} {v : GoValue} (ha : lookupA active k = none)
    (hc : lookupA conf k = some v) :
    lookupA (fillDefaults active conf) k = some v := by
  induction conf generalizing active with
  | nil => cases hc
  | cons kv rest ih =>
    obtain ⟨k0, v0⟩ := kv
    show lookupA (rest.foldl _ _) k = some v
    by_cases hk : k = k0
    · subst hk
      have hv : v0 = v := by simpa [lookupA] using hc
      subst hv
      rcases hkv : lookupA active k with _ | w
      · refine lookupA_fillDefaults_of_mem rest ?_
        simp only [hkv]
        rw [lookupA_insertA, if_pos rfl]
      · rw [hkv] at ha; cases ha
    · have hc2 : lookupA rest k = some v := by simpa [lookupA, hk] using hc
      rcases hkv : lookupA active k0 with _ | w
      · refine ih ?_ hc2
        simp only [hkv]
        rw [lookupA_insertA, if_neg hk]
        exact ha
      · refine ih ?_ hc2
        simpa only [hkv] using ha

theorem fillDefaults_cons (active : DeviceConf) (kv : String × GoValue)
    (rest : DeviceConf) :
    fillDefaults active (kv :: rest)
      = fillDefaults
          (match lookupA active kv.1 with
            | some _ => active
            | none => insertA active kv.1 kv.2)
          rest := rfl

theorem fillDefaults_keys_nodup {active : DeviceConf} (conf : DeviceConf)
    (h : (active.map Prod.fst).Nodup) :
    ((fillDefaults active conf).map Prod.fst).Nodup := by
  induction conf generalizing active with
  | nil => exact h
  | cons kv rest ih =>
    rw [fillDefaults_cons]
    rcases hkv : lookupA active kv.1 with _ | w
    · simp only [hkv]
      exact ih (insertA_keys_nodup h)
    · simp only [hkv]
      exact ih h

theorem updateDevicesDefaults_cons (A : QemuDevices) (p : Int × DeviceConf)
    (rest : QemuDevices) :
    updateDevicesDefaults A (p :: rest)
      = updateDevicesDefaults (updateDeviceStep A p) rest := rfl

theorem lookupA_updateDevicesDefaults_not_mem {A : QemuDevices}
    (C : QemuDevices) {id : Int} (h : id ∉ C.map Prod.fst) :
    lookupA (updateDevicesDefaults A C) id = lookupA A id := by
  induction C generalizing A with
  | nil => rfl
  | cons p rest ih =>
    simp only [List.map_cons, List.mem_cons, not_or] at h
    rw [updateDevicesDefaults_cons, ih h.2]
    unfold updateDeviceStep
    rw [lookupA_insertA, if_neg h.1]

theorem lookupA_updateDevicesDefaults_mem {A : QemuDevices}
    (C : QemuDevices) {id : Int} {conf : DeviceConf}
    (hnd : (C.map Prod.fst).Nodup) (hmem : lookupA C id = some conf) :
    lookupA (updateDevicesDefaults A C) id
      = some (fillDefaults ((lookupA A id).getD conf) conf) := by
  induction C generalizing A with
  | nil => cases hmem
  | cons p rest ih =>
    obtain ⟨id0, conf0⟩ := p
    simp only [List.map_cons, List.nodup_cons] at hnd
    rw [updateDevicesDefaults_cons]
    by_cases hid : id = id0
    · subst hid
      have hconf : conf0 = conf := by simpa [lookupA] using hmem
      subst hconf
      rw [lookupA_updateDevicesDefaults_not_mem rest hnd.1]
      unfold updateDeviceStep
      rw [lookupA_insertA, if_pos rfl]
      rcases hA : lookupA A id with _ | a <;> simp [hA]
    · have hmem2 : lookupA rest id = some conf := by simpa [lookupA, hid] using hmem
      rw [ih hnd.2 hmem2]
      unfold updateDeviceStep
      rw [lookupA_insertA, if_neg hid]

theorem not_mem_of_lookupA_eq_none {α β : Type} [DecidableEq α]
    {m : List (α × β)} {k : α} (h : lookupA m k = none) :
    k ∉ m.map Prod.fst := by
  induction m with
  | nil => simp
  | cons p rest ih =>
    obtain ⟨k0, v0⟩ := p
    by_cases hk : k = k0
    · subst hk; simp [lookupA] at h
    · simp only [lookupA, if_neg hk] at h
      simp [hk, ih h]

theorem updateDeviceStep_value_nodup {A : QemuDevices} {p : Int × DeviceConf}
    (hA : ∀ q ∈ A, (q.2.map Prod.fst).Nodup) (hp : (p.2.map Prod.fst).Nodup)
    (q : Int × DeviceConf) (hq : q ∈ updateDeviceStep A p) :
    (q.2.map Prod.fst).Nodup := by
  rcases mem_insertA hq with hq1 | hq1
  · exact hA _ hq1
  · subst hq1
    rcases hA0 : lookupA A p.1 with _ | a
    · simp only [hA0]
      exact fillDefaults_keys_nodup p.2 hp
    · simp only [hA0]
      exact fillDefaults_keys_nodup p.2 (hA _ (mem_of_lookupA hA0))

theorem updateDevicesDefaults_value_keys_nodup {A : QemuDevices}
    (C : QemuDevices)
    (hA : ∀ p ∈ A, (p.2.map Prod.fst).Nodup)
    (hC : ∀ p ∈ C, (p.2.map Prod.fst).Nodup)
    {id : Int} {r : DeviceConf}
    (h : lookupA (updateDevicesDefaults A C) id = some r) :
    (r.map Prod.fst).Nodup := by
  induction C generalizing A with
  | nil => exact hA _ (mem_of_lookupA h)
  | cons p rest ih =>
    rw [updateDevicesDefaults_cons] at h
    exact ih
      (updateDeviceStep_value_nodup hA (hC _ (List.mem_cons_self _ _)))
      (fun q hq => hC q (List.mem_cons_of_mem _ hq)) h

/-- C1: `updateDevicesDefaults` reconciliation.  For declared configuration
`C` and API report `A`: every declared slot id is present in the result,
every declared attribute key is present for its device, every reported
attribute value is kept unchanged, and every attribute (or whole record)
omitted by `A` is filled with the declared value from `C`. -/
theorem updateDevicesDefaults_reconciliation (A C : QemuDevices)
    (hC : (C.map Prod.fst).Nodup) :
    (∀ id conf, lookupA C id = some conf →
      ∃ r, lookupA (updateDevicesDefaults A C) id = some r
        ∧ (∀ k v, lookupA conf k = some v → (lookupA r k).isSome = true)
        ∧ (∀ k v, lookupA conf k = some v →
            (lookupA A id = none → lookupA r k = some v)
            ∧ (∀ a, lookupA A id = some a → lookupA a k = none →
                lookupA r k = some v)))
    ∧ (∀ id a, lookupA A id = some a → ∀ k v, lookupA a k = some v →
        ∃ r, lookupA (updateDevicesDefaults A C) id = some r
          ∧ lookupA r k = some v) := by
  constructor
  · intro id conf hid
    refine ⟨fillDefaults ((lookupA A id).getD conf) conf,
      lookupA_updateDevicesDefaults_mem C hC hid, ?_, ?_⟩
    · intro k v hkv
      rcases hbk : lookupA ((lookupA A id).getD conf) k with _ | w
      · rw [lookupA_fillDefaults_of_missing conf hbk hkv]; rfl
      · rw [lookupA_fillDefaults_of_mem conf hbk]; rfl
    · intro k v hkv
      constructor
      · intro hA
        simp only [hA, Option.getD_none]
        exact lookupA_fillDefaults_of_mem conf hkv
      · intro a hAa hak
        simp only [hAa, Option.getD_some]
        exact lookupA_fillDefaults_of_missing conf hak hkv
  · intro id a hAa k v hak
    rcases hCid : lookupA C id with _ | conf
    · refine ⟨a, ?_, hak⟩
      rw [lookupA_updateDevicesDefaults_not_mem C (not_mem_of_lookupA_eq_none hCid)]
      exact hAa
    · refine ⟨fillDefaults ((lookupA A id).getD conf) conf,
        lookupA_updateDevicesDefaults_mem C hC hCid, ?_⟩
      simp only [hAa, Option.getD_some]
      exact lookupA_fillDefaults_of_mem conf hak

/-- Concrete declared configuration for the C1 witness. -/
def c1C : QemuDevices :=
  [(0, [("id", GoValue.VInt 0), ("backup", GoValue.VBool false),
        ("size", GoValue.VStr "10G")]),
   (1, [("id", GoValue.VInt 1), ("size", GoValue.VStr "4G")])]

/-- Concrete API report for the C1 witness: device 1 omitted entirely,
device 0 reported without the `backup` attribute. -/
def c1A : QemuDevices := [(0, [("size", GoValue.VStr "20G")])]

theorem updateDevicesDefaults_reconciliation_witness :
    (c1C.map Prod.fst).Nodup
    ∧ ((∀ id conf, lookupA c1C id = some conf →
        ∃ r, lookupA (updateDevicesDefaults c1A c1C) id = some r
          ∧ (∀ k v, lookupA conf k = some v → (lookupA r k).isSome = true)
          ∧ (∀ k v, lookupA conf k = some v →
              (lookupA c1A id = none → lookupA r k = some v)
              ∧ (∀ a, lookupA c1A id = some a → lookupA a k = none →
                  lookupA r k = some v)))
      ∧ (∀ id a, lookupA c1A id = some a → ∀ k v, lookupA a k = some v →
          ∃ r, lookupA (updateDevicesDefaults c1A c1C) id = some r
            ∧ lookupA r k = some v)) :=
  ⟨by decide, updateDevicesDefaults_reconciliation c1A c1C (by decide)⟩

/-! ## Lemmas about the per-record merge loops -/

/-- The value the merge loop of `UpdateDevicesSet` leaves at a key, as a
function of the declared value at that key and the reconciled value. -/
def mergedValue (declared : Option GoValue) (v : GoValue) : Option GoValue :=
  match declared with
  | some (GoValue.VBool b) =>
    match v with
    | GoValue.VInt n =>
      match goParseBoolOfInt n with
      | some bv => some (GoValue.VBool bv)
      | none => some (GoValue.VBool b)
    | GoValue.VBool bv => some (GoValue.VBool bv)
    | _ => some (GoValue.VBool b)
  | _ => some v

theorem mergeRecord_cons (setConf : DeviceConf) (kv : String × GoValue)
    (rest : DeviceConf) :
    mergeRecord setConf (kv :: rest)
      = mergeRecord (mergeStep setConf kv) rest := rfl

theorem copyRecord_cons (setConf : DeviceConf) (kv : String × GoValue)
    (rest : DeviceConf) :
    copyRecord setConf (kv :: rest)
      = copyRecord (copyStep setConf kv) rest := rfl

theorem lookupA_cons_self {β : Type} (k : String) (v : β)
    (rest : List (String × β)) : lookupA ((k, v) :: rest) k = some v := by
  simp [lookupA]

theorem lookupA_cons_ne {β : Type} {k1 k : String} (h : k1 ≠ k) (v : β)
    (rest : List (String × β)) :
    lookupA ((k, v) :: rest) k1 = lookupA rest k1 := by
  simp [lookupA, h]

theorem lookupA_mergeStep_ne (acc : DeviceConf) (k1 : String) (w : GoValue)
    {k : String} (h : k ≠ k1) :
    lookupA (mergeStep acc (k1, w)) k = lookupA acc k := by
  have hins : ∀ u : GoValue, lookupA (insertA acc k1 u) k = lookupA acc k := by
    intro u
    rw [lookupA_insertA, if_neg h]
  rcases hd : lookupA acc k1 with _ | v
  · simpa only [mergeStep, hd] using hins w
  · cases v with
    | VBool b =>
      cases w with
      | VInt n =>
        rcases hb : goParseBoolOfInt n with _ | bb
        · simp only [mergeStep, hd, hb]
        · simpa only [mergeStep, hd, hb] using hins (GoValue.VBool bb)
      | VBool b2 => simpa only [mergeStep, hd] using hins (GoValue.VBool b2)
      | VStr s => simp only [mergeStep, hd]
      | VFloat q => simp only [mergeStep, hd]
    | VInt n => simpa only [mergeStep, hd] using hins w
    | VStr s => simpa only [mergeStep, hd] using hins w
    | VFloat q => simpa only [mergeStep, hd] using hins w

theorem lookupA_mergeStep_self (acc : DeviceConf) (k1 : String) (w : GoValue) :
    lookupA (mergeStep acc (k1, w)) k1 = mergedValue (lookupA acc k1) w := by
  have hins : ∀ u : GoValue, lookupA (insertA acc k1 u) k1 = some u := by
    intro u
    rw [lookupA_insertA, if_pos rfl]
  rcases hd : lookupA acc k1 with _ | v
  · simp only [mergeStep, hd, mergedValue, hins w]
  · cases v with
    | VBool b =>
      cases w with
      | VInt n =>
        rcases hb : goParseBoolOfInt n with _ | bb
        · simp only [mergeStep, hd, hb, mergedValue]
        · simp only [mergeStep, hd, hb, mergedValue, hins (GoValue.VBool bb)]
      | VBool b2 => simp only [mergeStep, hd, mergedValue, hins (GoValue.VBool b2)]
      | VStr s => simp only [mergeStep, hd, mergedValue]
      | VFloat q => simp only [mergeStep, hd, mergedValue]
    | VInt n => simp only [mergeStep, hd, mergedValue, hins w]
    | VStr s => simp only [mergeStep, hd, mergedValue, hins w]
    | VFloat q => simp only [mergeStep, hd, mergedValue, hins w]

theorem lookupA_copyStep_ne (acc : DeviceConf) (k1 : String) (w : GoValue)
    {k : String} (h : k ≠ k1) :
    lookupA (copyStep acc (k1, w)) k = lookupA acc k := by
  unfold copyStep
  rw [lookupA_insertA, if_neg h]

theorem lookupA_copyStep_self (acc : DeviceConf) (k1 : String) (w : GoValue) :
    lookupA (copyStep acc (k1, w)) k1 = some w := by
  unfold copyStep
  rw [lookupA_insertA, if_pos rfl]

theorem lookupA_mergeRecord (activeConf : DeviceConf) :
    ∀ (setConf : DeviceConf), (activeConf.map Prod.fst).Nodup → ∀ k,
      lookupA (mergeRecord setConf activeConf) k =
        match lookupA activeConf k with
        | none => lookupA setConf k
        | some v => mergedValue (lookupA setConf k) v := by
  induction activeConf with
  | nil =>
    intro setConf _ k
    rfl
  | cons kv rest ih =>
    intro setConf hnd k
    obtain ⟨k1, w⟩ := kv
    simp only [List.map_cons, List.nodup_cons] at hnd
    rw [mergeRecord_cons, ih _ hnd.2]
    by_cases hk : k = k1
    · subst hk
      have h1 : lookupA rest k = none := lookupA_eq_none_of_not_mem hnd.1
      simp only [h1, lookupA_cons_self]
      exact lookupA_mergeStep_self setConf k w
    · rw [lookupA_cons_ne hk]
      rcases hr : lookupA rest k with _ | v <;>
        simp only [hr, lookupA_mergeStep_ne setConf k1 w hk]

theorem lookupA_copyRecord (activeConf : DeviceConf) :
    ∀ (setConf : DeviceConf), (activeConf.map Prod.fst).Nodup → ∀ k,
      lookupA (copyRecord setConf activeConf) k =
        match lookupA activeConf k with
        | none => lookupA setConf k
        | some v => some v := by
  induction activeConf with
  | nil =>
    intro setConf _ k
    rfl
  | cons kv rest ih =>
    intro setConf hnd k
    obtain ⟨k1, w⟩ := kv
    simp only [List.map_cons, List.nodup_cons] at hnd
    rw [copyRecord_cons, ih _ hnd.2]
    by_cases hk : k = k1
    · subst hk
      have h1 : lookupA rest k = none := lookupA_eq_none_of_not_mem hnd.1
      simp only [h1, lookupA_cons_self]
      exact lookupA_copyStep_self setConf k w
    · rw [lookupA_cons_ne hk]
      rcases hr : lookupA rest k with _ | v <;>
        simp only [hr, lookupA_copyStep_ne setConf k1 w hk]

/-! ## Lemmas about `DevicesSetToMap` -/

theorem foldl_invariant {σ γ : Type} (P : σ → Prop) (f : σ → γ → σ)
    (l : List γ) :
    ∀ (s : σ), P s → (∀ t a, a ∈ l → P t → P (f t a)) → P (l.foldl f s) := by
  induction l with
  | nil =>
    intro s h0 _
    exact h0
  | cons x xs ih =>
    intro s h0 hstep
    exact ih (f s x) (hstep s x (List.mem_cons_self _ _) h0)
      (fun t a ha => hstep t a (List.mem_cons_of_mem _ ha))

theorem DevicesSetToMap_mem {l : List DeviceConf} {p : Int × DeviceConf}
    (h : p ∈ DevicesSetToMap l) : p.2 ∈ l ∧ getId p.2 = some p.1 := by
  refine foldl_invariant
    (fun m => ∀ q ∈ m, q.2 ∈ l ∧ getId q.2 = some q.1)
    setToMapStep l [] (by simp) ?_ p h
  intro t conf hconf ht q hq
  unfold setToMapStep at hq
  rcases hg : getId conf with _ | cid
  · rw [hg] at hq
    exact ht q hq
  · rw [hg] at hq
    rcases mem_insertA hq with h1 | h1
    · exact ht q h1
    · subst h1
      exact ⟨hconf, hg⟩

theorem DevicesSetToMap_keys_nodup (l : List DeviceConf) :
    ((DevicesSetToMap l).map Prod.fst).Nodup := by
  refine foldl_invariant (fun m => (m.map Prod.fst).Nodup)
    setToMapStep l [] (by simp) ?_
  intro t conf _ ht
  unfold setToMapStep
  rcases hg : getId conf with _ | cid
  · exact ht
  · exact insertA_keys_nodup ht

theorem DevicesSetToMap_isSome_aux (l : List DeviceConf) :
    ∀ (acc : QemuDevices) (id : Int),
      ((lookupA acc id).isSome = true ∨ ∃ conf ∈ l, getId conf = some id) →
      (lookupA (l.foldl setToMapStep acc) id).isSome = true := by
  induction l with
  | nil =>
    intro acc id h
    rcases h with h | ⟨c, hc, _⟩
    · exact h
    · simp at hc
  | cons c rest ih =>
    intro acc id h
    rw [List.foldl_cons]
    apply ih
    rcases h with h | ⟨c2, hc2, hid⟩
    · left
      unfold setToMapStep
      rcases hg : getId c with _ | cid
      · exact h
      · rw [lookupA_insertA]
        by_cases he : id = cid
        · simp [he]
        · rw [if_neg he]
          exact h
    · rcases List.mem_cons.mp hc2 with he | hmem
      · left
        subst he
        unfold setToMapStep
        simp [hid, lookupA_insertA]
      · right
        exact ⟨c2, hmem, hid⟩

theorem DevicesSetToMap_lookup_isSome {l : List DeviceConf}
    {conf : DeviceConf} {id : Int} (hconf : conf ∈ l)
    (hid : getId conf = some id) :
    (lookupA (DevicesSetToMap l) id).isSome = true :=
  DevicesSetToMap_isSome_aux l [] id (Or.inr ⟨conf, hconf, hid⟩)

theorem UpdateDevicesSet_get (l : List DeviceConf) (m : QemuDevices)
    (i : Nat) (hi : i < l.length) (h2 : i < (UpdateDevicesSet l m).length) :
    (UpdateDevicesSet l m).get ⟨i, h2⟩ =
      match getId (l.get ⟨i, hi⟩) with
      | some deviceID =>
          mergeRecord (l.get ⟨i, hi⟩)
            ((lookupA (updateDevicesDefaults m (DevicesSetToMap l))
                deviceID).getD [])
      | none => l.get ⟨i, hi⟩ := by
  simp only [UpdateDevicesSet, List.get_eq_getElem, List.getElem_map]

/-- C2: in `UpdateDevicesSet`, an attribute declared as a boolean whose
reconciled value is the integer 0 (resp. 1) ends up as the boolean `false`
(resp. `true`) in the merged record, and an attribute whose declared value
is not a boolean is copied from the reconciled map as-is. -/
theorem UpdateDevicesSet_bool_normalization
    (l : List DeviceConf) (m : QemuDevices) (i : Nat)
    (hi : i < l.length) (h2 : i < (UpdateDevicesSet l m).length)
    (hm : ∀ p ∈ m, (p.2.map Prod.fst).Nodup)
    (hl : ∀ conf ∈ l, (conf.map Prod.fst).Nodup)
    (k : String) (id : Int)
    (hid : getId (l.get ⟨i, hi⟩) = some id)
    (v : GoValue)
    (hv : lookupA ((lookupA (updateDevicesDefaults m (DevicesSetToMap l))
        id).getD []) k = some v) :
    ((∃ b, lookupA (l.get ⟨i, hi⟩) k = some (GoValue.VBool b)) →
        (v = GoValue.VInt 0 →
          lookupA ((UpdateDevicesSet l m).get ⟨i, h2⟩) k
            = some (GoValue.VBool false))
      ∧ (v = GoValue.VInt 1 →
          lookupA ((UpdateDevicesSet l m).get ⟨i, h2⟩) k
            = some (GoValue.VBool true)))
    ∧ ((∀ b, lookupA (l.get ⟨i, hi⟩) k ≠ some (GoValue.VBool b)) →
        lookupA ((UpdateDevicesSet l m).get ⟨i, h2⟩) k = some v) := by
  rcases hact : lookupA (updateDevicesDefaults m (DevicesSetToMap l)) id
    with _ | r
  · rw [hact] at hv
    simp [lookupA] at hv
  · rw [hact] at hv
    simp only [Option.getD_some] at hv
    have hrnd : (r.map Prod.fst).Nodup :=
      updateDevicesDefaults_value_keys_nodup (DevicesSetToMap l) hm
        (fun p hp => hl p.2 (DevicesSetToMap_mem hp).1) hact
    have hout : lookupA ((UpdateDevicesSet l m).get ⟨i, h2⟩) k
        = mergedValue (lookupA (l.get ⟨i, hi⟩) k) v := by
      rw [UpdateDevicesSet_get l m i hi h2]
      simp only [hid, hact, Option.getD_some]
      rw [lookupA_mergeRecord r _ hrnd k, hv]
    constructor
    · rintro ⟨b, hb⟩
      constructor
      · rintro rfl
        rw [hout, hb]
        rfl
      · rintro rfl
        rw [hout, hb]
        rfl
    · intro hnb
      rw [hout]
      rcases hdk : lookupA (l.get ⟨i, hi⟩) k with _ | w
      · rfl
      · cases w with
        | VBool b => exact absurd hdk (hnb b)
        | VInt n => rfl
        | VStr s => rfl
        | VFloat q => rfl

/-- Concrete declared set for the C2 witness: one network-like record with a
boolean `firewall` attribute. -/
def c2l : List DeviceConf :=
  [[("id", GoValue.VInt 0), ("firewall", GoValue.VBool false)]]

/-- Concrete API report for the C2 witness: `firewall` reported as the
integer 1. -/
def c2m : QemuDevices := [(0, [("firewall", GoValue.VInt 1)])]

theorem UpdateDevicesSet_bool_normalization_witness :
    ((0 : Nat) < c2l.length
      ∧ (0 : Nat) < (UpdateDevicesSet c2l c2m).length
      ∧ (∀ p ∈ c2m, (p.2.map Prod.fst).Nodup)
      ∧ (∀ conf ∈ c2l, (conf.map Prod.fst).Nodup)
      ∧ getId (c2l.get ⟨0, by decide⟩) = some 0
      ∧ lookupA ((lookupA (updateDevicesDefaults c2m (DevicesSetToMap c2l))
          0).getD []) "firewall" = some (GoValue.VInt 1))
    ∧ (((∃ b, lookupA (c2l.get ⟨0, by decide⟩) "firewall"
            = some (GoValue.VBool b)) →
          (GoValue.VInt 1 = GoValue.VInt 0 →
            lookupA ((UpdateDevicesSet c2l c2m).get ⟨0, by decide⟩) "firewall"
              = some (GoValue.VBool false))
        ∧ (GoValue.VInt 1 = GoValue.VInt 1 →
            lookupA ((UpdateDevicesSet c2l c2m).get ⟨0, by decide⟩) "firewall"
              = some (GoValue.VBool true)))
      ∧ ((∀ b, lookupA (c2l.get ⟨0, by decide⟩) "firewall"
            ≠ some (GoValue.VBool b)) →
          lookupA ((UpdateDevicesSet c2l c2m).get ⟨0, by decide⟩) "firewall"
            = some (GoValue.VInt 1))) :=
  ⟨⟨by decide, by decide, by decide, by decide, by decide, by decide⟩,
    UpdateDevicesSet_bool_normalization c2l c2m 0 (by decide) (by decide)
      (by decide) (by decide) "firewall" 0 (by decide) (GoValue.VInt 1)
      (by decide)⟩

/-! ## C3: `flattenDevices` versus `UpdateDevicesSet` -/

/-- Declared set exhibiting the divergence of the two implementations: a
record with a boolean `firewall` attribute. -/
def c3l : List DeviceConf :=
  [[("id", GoValue.VInt 0), ("firewall", GoValue.VBool false)]]

/-- API report for the C3 counterexample: `firewall` reported as integer 1,
as Proxmox does for `net[n]` flags. -/
def c3m : QemuDevices := [(0, [("firewall", GoValue.VInt 1)])]

/-- C3 counterexample: the two implementations differ on a declared boolean
attribute reported as an integer — `UpdateDevicesSet` normalises 1 to
`true` while `flattenDevices` keeps the integer 1. -/
theorem flattenDevices_ne_UpdateDevicesSet :
    flattenDevices c3l c3m ≠ UpdateDevicesSet c3l c3m := by decide

theorem copyRecord_eq_mergeRecord (act : DeviceConf) :
    ∀ (acc conf : DeviceConf), (act.map Prod.fst).Nodup →
      (∀ kv ∈ act, lookupA acc kv.1 = lookupA conf kv.1) →
      (∀ kv ∈ act, ∀ b, lookupA conf kv.1 = some (GoValue.VBool b) →
          ∃ b2, kv.2 = GoValue.VBool b2) →
      copyRecord acc act = mergeRecord acc act := by
  induction act with
  | nil =>
    intro acc conf _ _ _
    rfl
  | cons kv rest ih =>
    intro acc conf hnd hagree hb
    obtain ⟨k1, w⟩ := kv
    simp only [List.map_cons, List.nodup_cons] at hnd
    have hstep : copyStep acc (k1, w) = mergeStep acc (k1, w) := by
      rcases hd : lookupA acc k1 with _ | v
      · simp only [copyStep, mergeStep, hd]
      · cases v with
        | VBool b =>
          have hconf : lookupA conf k1 = some (GoValue.VBool b) := by
            rw [← hagree (k1, w) (List.mem_cons_self _ _), hd]
          obtain ⟨b2, hb2⟩ := hb (k1, w) (List.mem_cons_self _ _) b hconf
          simp only at hb2
          subst hb2
          simp only [copyStep, mergeStep, hd]
        | VInt n => simp only [copyStep, mergeStep, hd]
        | VStr s => simp only [copyStep, mergeStep, hd]
        | VFloat q => simp only [copyStep, mergeStep, hd]
    rw [copyRecord_cons, mergeRecord_cons, hstep]
    refine ih (mergeStep acc (k1, w)) conf hnd.2 ?_
      (fun q hq => hb q (List.mem_cons_of_mem _ hq))
    intro q hq
    have hne : q.1 ≠ k1 :=
      fun he => hnd.1 (he ▸ List.mem_map_of_mem Prod.fst hq)
    cases hq2 : q with
    | mk qk qv =>
      rw [hq2] at hne
      rw [lookupA_mergeStep_ne acc k1 w hne]
      have := hagree q (List.mem_cons_of_mem _ hq)
      rw [hq2] at this
      exact this

/-- C3, amended: the two reconciliation implementations agree whenever
every reconciled attribute whose declared counterpart is a boolean is
itself a boolean; in general they differ, because only `UpdateDevicesSet`
normalises integer values of declared-boolean attributes. -/
theorem flattenDevices_eq_UpdateDevicesSet
    (l : List DeviceConf) (m : QemuDevices)
    (hm : ∀ p ∈ m, (p.2.map Prod.fst).Nodup)
    (hl : ∀ conf ∈ l, (conf.map Prod.fst).Nodup)
    (hbool : ∀ conf ∈ l, ∀ id ∈ getId conf,
      ∀ kv ∈ (lookupA (updateDevicesDefaults m (DevicesSetToMap l))
          id).getD [],
        ∀ b, lookupA conf kv.1 = some (GoValue.VBool b) →
          ∃ b2, kv.2 = GoValue.VBool b2) :
    flattenDevices l m = UpdateDevicesSet l m := by
  unfold flattenDevices UpdateDevicesSet
  rw [expandDevices_eq_DevicesSetToMap]
  refine List.map_congr_left ?_
  intro conf hconf
  rcases hid : getId conf with _ | id
  · rfl
  · show copyRecord conf
        ((lookupA (updateDevicesDefaults m (DevicesSetToMap l)) id).getD [])
      = mergeRecord conf
        ((lookupA (updateDevicesDefaults m (DevicesSetToMap l)) id).getD [])
    rcases hact : lookupA (updateDevicesDefaults m (DevicesSetToMap l)) id
      with _ | r
    · rfl
    · have hrnd : (r.map Prod.fst).Nodup :=
        updateDevicesDefaults_value_keys_nodup (DevicesSetToMap l) hm
          (fun p hp => hl p.2 (DevicesSetToMap_mem hp).1) hact
      refine copyRecord_eq_mergeRecord r conf conf hrnd (fun _ _ => rfl) ?_
      intro kv hkv b hbv
      refine hbool conf hconf id (Option.mem_def.mpr hid) kv ?_ b hbv
      rw [hact]
      exact hkv

/-- Declared set for the C3 amended-claim witness: the reconciled value of
the declared boolean attribute is itself a boolean. -/
def c3wl : List DeviceConf :=
  [[("id", GoValue.VInt 0), ("firewall", GoValue.VBool false)]]

def c3wm : QemuDevices := [(0, [("firewall", GoValue.VBool true)])]

theorem flattenDevices_eq_UpdateDevicesSet_witness :
    ((∀ p ∈ c3wm, (p.2.map Prod.fst).Nodup)
      ∧ (∀ conf ∈ c3wl, (conf.map Prod.fst).Nodup)
      ∧ (∀ conf ∈ c3wl, ∀ id ∈ getId conf,
          ∀ kv ∈ (lookupA (updateDevicesDefaults c3wm
              (DevicesSetToMap c3wl)) id).getD [],
            ∀ b, lookupA conf kv.1 = some (GoValue.VBool b) →
              ∃ b2, kv.2 = GoValue.VBool b2))
    ∧ flattenDevices c3wl c3wm = UpdateDevicesSet c3wl c3wm :=
  ⟨⟨by decide, by decide, by decide⟩,
    flattenDevices_eq_UpdateDevicesSet c3wl c3wm (by decide) (by decide)
      (by decide)⟩

/-! ## C4: slot id stability -/

/-- Declared set for the C4 counterexample. -/
def c4l : List DeviceConf := [[("id", GoValue.VInt 0)]]

/-- API report for the C4 counterexample: the reported record carries an
`id` attribute that differs from its slot key. -/
def c4m : QemuDevices := [(0, [("id", GoValue.VInt 7)])]

/-- C4 counterexample: with an API-reported record carrying an `id`
attribute, the reconciled record's id is changed by the read — the output
record has id 7, which is not a declared slot id. -/
theorem UpdateDevicesSet_id_change_counterexample :
    getId ((UpdateDevicesSet c4l c4m).headI) = some 7
    ∧ (7 : Int) ∉ c4l.filterMap getId
    ∧ (UpdateDevicesSet c4l c4m).headI ∈ UpdateDevicesSet c4l c4m := by
  decide

theorem getId_lookup {conf : DeviceConf} {id : Int}
    (h : getId conf = some id) :
    lookupA conf "id" = some (GoValue.VInt id) := by
  unfold getId at h
  rcases h2 : lookupA conf "id" with _ | w
  · rw [h2] at h
    cases h
  · rw [h2] at h
    cases w with
    | VInt n =>
      simp only [Option.some.injEq] at h
      subst h
      rfl
    | VBool b => cases h
    | VStr s => cases h
    | VFloat q => cases h

theorem reconciled_id_value {l : List DeviceConf} {m : QemuDevices}
    (hmid : ∀ p ∈ m, lookupA p.2 "id" = none)
    {id : Int} {r : DeviceConf}
    (hin : (lookupA (DevicesSetToMap l) id).isSome = true)
    (hr : lookupA (updateDevicesDefaults m (DevicesSetToMap l)) id = some r) :
    lookupA r "id" = some (GoValue.VInt id) := by
  rcases hc : lookupA (DevicesSetToMap l) id with _ | c
  · rw [hc] at hin
    cases hin
  · have hcid : lookupA c "id" = some (GoValue.VInt id) := by
      have h1 := (DevicesSetToMap_mem (mem_of_lookupA hc)).2
      unfold getId at h1
      rcases h2 : lookupA c "id" with _ | w
      · rw [h2] at h1
        cases h1
      · rw [h2] at h1
        cases w with
        | VInt n =>
          simp only [Option.some.injEq] at h1
          rw [h1]
        | VBool b => cases h1
        | VStr s => cases h1
        | VFloat q => cases h1
    have hmain := lookupA_updateDevicesDefaults_mem (A := m)
      (DevicesSetToMap l) (DevicesSetToMap_keys_nodup l) hc
    rw [hmain] at hr
    injection hr with hreq
    subst hreq
    rcases hA : lookupA m id with _ | a
    · simp only [hA, Option.getD_none]
      exact lookupA_fillDefaults_of_mem c hcid
    · simp only [hA, Option.getD_some]
      exact lookupA_fillDefaults_of_missing c
        (hmid _ (mem_of_lookupA hA)) hcid

/-- C4, amended: provided no API-reported record carries an `id` attribute
(the reported `id` would otherwise overwrite the declared one), both
reconciliation routines return exactly one record per declared record, and
every output record's id is one of the declared slot ids — in particular no
record for a slot id that appears only in the API report is added. -/
theorem devices_id_stability (l : List DeviceConf) (m : QemuDevices)
    (hm : ∀ p ∈ m, (p.2.map Prod.fst).Nodup)
    (hl : ∀ conf ∈ l, (conf.map Prod.fst).Nodup)
    (hmid : ∀ p ∈ m, lookupA p.2 "id" = none) :
    ((UpdateDevicesSet l m).length = l.length
      ∧ (flattenDevices l m).length = l.length)
    ∧ (∀ conf2 ∈ UpdateDevicesSet l m, ∀ id, getId conf2 = some id →
        id ∈ l.filterMap getId)
    ∧ (∀ conf2 ∈ flattenDevices l m, ∀ id, getId conf2 = some id →
        id ∈ l.filterMap getId) := by
  have hCnodup : ∀ p ∈ DevicesSetToMap l, (p.2.map Prod.fst).Nodup :=
    fun p hp => hl p.2 (DevicesSetToMap_mem hp).1
  refine ⟨⟨by simp [UpdateDevicesSet], by simp [flattenDevices]⟩, ?_, ?_⟩
  · intro conf2 hconf2 id hgid
    rw [UpdateDevicesSet] at hconf2
    simp only [List.mem_map] at hconf2
    obtain ⟨conf, hconf, heq⟩ := hconf2
    rcases hid0 : getId conf with _ | id0
    · have heq2 : conf = conf2 := by rw [← heq, hid0]
      rw [← heq2, hid0] at hgid
      cases hgid
    · have heq2 : mergeRecord conf
          ((lookupA (updateDevicesDefaults m (DevicesSetToMap l)) id0).getD
            []) = conf2 := by
        rw [← heq, hid0]
      rcases hact : lookupA (updateDevicesDefaults m (DevicesSetToMap l)) id0
        with _ | r
      · rw [hact] at heq2
        simp only [Option.getD_none] at heq2
        have hmr : mergeRecord conf [] = conf := rfl
        rw [hmr] at heq2
        rw [← heq2, hid0] at hgid
        simp only [Option.some.injEq] at hgid
        subst hgid
        exact List.mem_filterMap.mpr ⟨conf, hconf, hid0⟩
      · rw [hact] at heq2
        simp only [Option.getD_some] at heq2
        have hrnd : (r.map Prod.fst).Nodup :=
          updateDevicesDefaults_value_keys_nodup (DevicesSetToMap l) hm
            hCnodup hact
        have hrid : lookupA r "id" = some (GoValue.VInt id0) :=
          reconciled_id_value hmid
            (DevicesSetToMap_lookup_isSome hconf hid0) hact
        have hout : lookupA conf2 "id" = some (GoValue.VInt id0) := by
          rw [← heq2, lookupA_mergeRecord r conf hrnd, hrid]
          show mergedValue (lookupA conf "id") (GoValue.VInt id0)
            = some (GoValue.VInt id0)
          rw [getId_lookup hid0]
          rfl
        have hg2 : getId conf2 = some id0 := by
          unfold getId
          rw [hout]
        rw [hg2] at hgid
        simp only [Option.some.injEq] at hgid
        subst hgid
        exact List.mem_filterMap.mpr ⟨conf, hconf, hid0⟩
  · intro conf2 hconf2 id hgid
    rw [flattenDevices, expandDevices_eq_DevicesSetToMap] at hconf2
    simp only [List.mem_map] at hconf2
    obtain ⟨conf, hconf, heq⟩ := hconf2
    rcases hid0 : getId conf with _ | id0
    · have heq2 : conf = conf2 := by rw [← heq, hid0]
      rw [← heq2, hid0] at hgid
      cases hgid
    · have heq2 : copyRecord conf
          ((lookupA (updateDevicesDefaults m (DevicesSetToMap l)) id0).getD
            []) = conf2 := by
        rw [← heq, hid0]
      rcases hact : lookupA (updateDevicesDefaults m (DevicesSetToMap l)) id0
        with _ | r
      · rw [hact] at heq2
        simp only [Option.getD_none] at heq2
        have hmr : copyRecord conf [] = conf := rfl
        rw [hmr] at heq2
        rw [← heq2, hid0] at hgid
        simp only [Option.some.injEq] at hgid
        subst hgid
        exact List.mem_filterMap.mpr ⟨conf, hconf, hid0⟩
      · rw [hact] at heq2
        simp only [Option.getD_some] at heq2
        have hrnd : (r.map Prod.fst).Nodup :=
          updateDevicesDefaults_value_keys_nodup (DevicesSetToMap l) hm
            hCnodup hact
        have hrid : lookupA r "id" = some (GoValue.VInt id0) :=
          reconciled_id_value hmid
            (DevicesSetToMap_lookup_isSome hconf hid0) hact
        have hout : lookupA conf2 "id" = some (GoValue.VInt id0) := by
          rw [← heq2, lookupA_copyRecord r conf hrnd, hrid]
        have hg2 : getId conf2 = some id0 := by
          unfold getId
          rw [hout]
        rw [hg2] at hgid
        simp only [Option.some.injEq] at hgid
        subst hgid
        exact List.mem_filterMap.mpr ⟨conf, hconf, hid0⟩

/-- Declared set and API report for the C4 amended-claim witness. -/
def c4wl : List DeviceConf :=
  [[("id", GoValue.VInt 0), ("size", GoValue.VStr "10G")],
   [("id", GoValue.VInt 3), ("size", GoValue.VStr "4G")]]

def c4wm : QemuDevices :=
  [(0, [("size", GoValue.VStr "20G")]), (5, [("size", GoValue.VStr "1G")])]

theorem devices_id_stability_witness :
    ((∀ p ∈ c4wm, (p.2.map Prod.fst).Nodup)
      ∧ (∀ conf ∈ c4wl, (conf.map Prod.fst).Nodup)
      ∧ (∀ p ∈ c4wm, lookupA p.2 "id" = none))
    ∧ (((UpdateDevicesSet c4wl c4wm).length = c4wl.length
        ∧ (flattenDevices c4wl c4wm).length = c4wl.length)
      ∧ (∀ conf2 ∈ UpdateDevicesSet c4wl c4wm, ∀ id, getId conf2 = some id →
          id ∈ c4wl.filterMap getId)
      ∧ (∀ conf2 ∈ flattenDevices c4wl c4wm, ∀ id, getId conf2 = some id →
          id ∈ c4wl.filterMap getId)) :=
  ⟨⟨by decide, by decide, by decide⟩,
    devices_id_stability c4wl c4wm (by decide) (by decide) (by decide)⟩

/-! ## `diskSizeGB` (`resource_vm_qemu.go`)

Numeric values are modelled by exact rationals; the Go code uses `float64`,
whose rounding plays no role for the properties below. -/

def isDigitChar (c : Char) : Bool := 48 ≤ c.toNat && c.toNat ≤ 57

def isUpperAlpha (c : Char) : Bool := 65 ≤ c.toNat && c.toNat ≤ 90

/-- Model of `strings.ToUpper`, restricted to ASCII (disk size strings are ASCII). -/
def toUpperChar (c : Char) : Char :=
  if 97 ≤ c.toNat ∧ c.toNat ≤ 122 then Char.ofNat (c.toNat - 32) else c

/-- Leftmost match of the regular expression `([0-9]+)([A-Z]*)`: the first
maximal digit run together with the following maximal run of upper-case
letters.  `none` when the string holds no digit, in which case Go's
`FindStringSubmatch` returns nil. -/
def firstMatch : List Char → Option (List Char × List Char)
  | [] => none
  | c :: rest =>
    if isDigitChar c then
      some ((c :: rest).takeWhile isDigitChar,
        ((c :: rest).dropWhile isDigitChar).takeWhile isUpperAlpha)
    else firstMatch rest

/-- Model of `strconv.ParseFloat` on a digit string, modelled exactly. -/
def digitsToNat (l : List Char) : Nat :=
  l.foldl (fun acc c => 10 * acc + (c.toNat - 48)) 0

/-- The unit-suffix switch of `diskSizeGB`: decimal (not 1024-based)
conversion; an unrecognised suffix leaves the value unscaled. -/
def applySuffix (v : ℚ) (suffix : List Char) : ℚ :=
  if suffix = ['G'] ∨ suffix = ['G', 'B'] then v
  else if suffix = ['M'] ∨ suffix = ['M', 'B'] then v / 1000
  else if suffix = ['K'] ∨ suffix = ['K', 'B'] then v / 1000000
  else v

/-- The function `diskSizeGB`: `none` models the Go panic on `diskArray[1]` when the
regexp finds no match (a digit-free string).  A missing attribute (Go
`nil`), an `int` or a `bool` falls through the type switch and yields 0;
a `float64` is returned unchanged. -/
def diskSizeGB (dcSize : Option GoValue) : Option ℚ :=
  match dcSize with
  | some (GoValue.VStr s) =>
    match firstMatch (s.data.map toUpperChar) with
    | none => none
    | some (g1, g2) => some (applySuffix ((digitsToNat g1 : ℚ)) g2)
  | some (GoValue.VFloat q) => some q
  | _ => some 0

/-- C9 counterexample: `diskSizeGB` panics on a digit-free string — the
regexp `([0-9]+)([A-Z]*)` does not match, `FindStringSubmatch` returns nil,
and indexing `diskArray[1]` is out of range (modelled by `none`). -/
theorem diskSizeGB_digitless_panic :
    diskSizeGB (some (GoValue.VStr "scsi")) = none := by decide

theorem toUpperChar_digit {c : Char} (h : isDigitChar c = true) :
    toUpperChar c = c := by
  unfold toUpperChar
  rw [if_neg]
  unfold isDigitChar at h
  simp only [Bool.and_eq_true, decide_eq_true_eq] at h
  intro hc
  omega

theorem map_toUpperChar_digits {digits : List Char}
    (h : ∀ c ∈ digits, isDigitChar c = true) :
    digits.map toUpperChar = digits := by
  induction digits with
  | nil => rfl
  | cons c cs ih =>
    rw [List.map_cons, toUpperChar_digit (h c (List.mem_cons_self _ _)),
      ih (fun c2 hc2 => h c2 (List.mem_cons_of_mem _ hc2))]

theorem firstMatch_isSome {l : List Char}
    (h : ∃ c ∈ l, isDigitChar c = true) :
    (firstMatch l).isSome = true := by
  induction l with
  | nil => simp at h
  | cons c rest ih =>
    unfold firstMatch
    by_cases hc : isDigitChar c = true
    · simp [hc]
    · rw [if_neg (by simpa using hc)]
      apply ih
      rcases h with ⟨d, hd, hdig⟩
      rcases List.mem_cons.mp hd with he | hmem
      · exact absurd (he ▸ hdig) hc
      · exact ⟨d, hmem, hdig⟩

/-- C9, amended: `diskSizeGB` returns a value on every string that holds at
least one digit (the Terraform-declared `<number><unit>` sizes all do); it
panics exactly on digit-free strings. -/
theorem diskSizeGB_total_on_digit (s : String)
    (h : ∃ c ∈ s.data, isDigitChar c = true) :
    (diskSizeGB (some (GoValue.VStr s))).isSome = true := by
  have h2 : ∃ c ∈ s.data.map toUpperChar, isDigitChar c = true := by
    rcases h with ⟨c, hc, hdig⟩
    refine ⟨toUpperChar c, List.mem_map_of_mem _ hc, ?_⟩
    rw [toUpperChar_digit hdig]
    exact hdig
  show (match firstMatch (s.data.map toUpperChar) with
    | none => (none : Option ℚ)
    | some (g1, g2) => some (applySuffix ((digitsToNat g1 : ℚ)) g2)).isSome
      = true
  rcases hm : firstMatch (s.data.map toUpperChar) with _ | ⟨g1, g2⟩
  · have h3 := firstMatch_isSome h2
    rw [hm] at h3
    cases h3
  · rfl

theorem diskSizeGB_total_on_digit_witness :
    (∃ c ∈ ("10G" : String).data, isDigitChar c = true)
    ∧ (diskSizeGB (some (GoValue.VStr "10G"))).isSome = true :=
  ⟨by decide, diskSizeGB_total_on_digit "10G" (by decide)⟩

theorem takeWhile_append_of_all {p : Char → Bool} {l1 : List Char}
    (l2 : List Char) (h : ∀ c ∈ l1, p c = true) :
    (l1 ++ l2).takeWhile p = l1 ++ l2.takeWhile p := by
  induction l1 with
  | nil => rfl
  | cons c cs ih =>
    rw [List.cons_append, List.takeWhile_cons, if_pos (h c (List.mem_cons_self _ _)),
      ih (fun c2 hc2 => h c2 (List.mem_cons_of_mem _ hc2)), List.cons_append]

theorem dropWhile_append_of_all {p : Char → Bool} {l1 : List Char}
    (l2 : List Char) (h : ∀ c ∈ l1, p c = true) :
    (l1 ++ l2).dropWhile p = l2.dropWhile p := by
  induction l1 with
  | nil => rfl
  | cons c cs ih =>
    rw [List.cons_append, List.dropWhile_cons, if_pos (h c (List.mem_cons_self _ _)),
      ih (fun c2 hc2 => h c2 (List.mem_cons_of_mem _ hc2))]

theorem takeWhile_nil_of_all_false {p : Char → Bool} {l : List Char}
    (h : ∀ c ∈ l, p c = false) : l.takeWhile p = [] := by
  cases l with
  | nil => rfl
  | cons c cs =>
    rw [List.takeWhile_cons, if_neg (by simp [h c (List.mem_cons_self _ _)])]

theorem dropWhile_self_of_all_false {p : Char → Bool} {l : List Char}
    (h : ∀ c ∈ l, p c = false) : l.dropWhile p = l := by
  cases l with
  | nil => rfl
  | cons c cs =>
    rw [List.dropWhile_cons, if_neg (by simp [h c (List.mem_cons_self _ _)])]

theorem takeWhile_self_of_all_true {p : Char → Bool} {l : List Char}
    (h : ∀ c ∈ l, p c = true) : l.takeWhile p = l := by
  induction l with
  | nil => rfl
  | cons c cs ih =>
    rw [List.takeWhile_cons, if_pos (h c (List.mem_cons_self _ _)),
      ih (fun c2 hc2 => h c2 (List.mem_cons_of_mem _ hc2))]

theorem firstMatch_append (digits up : List Char) (hne : digits ≠ [])
    (hdig : ∀ c ∈ digits, isDigitChar c = true)
    (hup1 : ∀ c ∈ up, isUpperAlpha c = true)
    (hup2 : ∀ c ∈ up, isDigitChar c = false) :
    firstMatch (digits ++ up) = some (digits, up) := by
  cases digits with
  | nil => exact absurd rfl hne
  | cons d ds =>
    have hd : isDigitChar d = true := hdig d (List.mem_cons_self _ _)
    rw [List.cons_append]
    unfold firstMatch
    rw [if_pos hd, ← List.cons_append,
      takeWhile_append_of_all up hdig, takeWhile_nil_of_all_false hup2,
      dropWhile_append_of_all up hdig, dropWhile_self_of_all_false hup2,
      takeWhile_self_of_all_true hup1, List.append_nil]

theorem diskSizeGB_str_eval (digits suffix : List Char) (hne : digits ≠ [])
    (hdig : ∀ c ∈ digits, isDigitChar c = true)
    (hup1 : ∀ c ∈ suffix.map toUpperChar, isUpperAlpha c = true)
    (hup2 : ∀ c ∈ suffix.map toUpperChar, isDigitChar c = false) :
    diskSizeGB (some (GoValue.VStr (String.mk (digits ++ suffix))))
      = some (applySuffix ((digitsToNat digits : ℚ))
          (suffix.map toUpperChar)) := by
  show (match firstMatch ((digits ++ suffix).map toUpperChar) with
    | none => (none : Option ℚ)
    | some (g1, g2) => some (applySuffix ((digitsToNat g1 : ℚ)) g2))
      = some (applySuffix ((digitsToNat digits : ℚ)) (suffix.map toUpperChar))
  rw [List.map_append, map_toUpperChar_digits hdig,
    firstMatch_append digits (suffix.map toUpperChar) hne hdig hup1 hup2]

/-- C10: on a string of digits followed by an optional unit suffix (matched
case-insensitively), `diskSizeGB` returns the numeric value unchanged for
suffix `G`/`GB`/none, divided by 1000 for `M`/`MB` and by 1000000 for
`K`/`KB` (decimal conversion); a float input is returned unchanged and an
input of any other type yields 0. -/
theorem diskSizeGB_unit_conversion (digits suffix : List Char)
    (hne : digits ≠ [])
    (hdig : ∀ c ∈ digits, isDigitChar c = true) :
    ((suffix.map toUpperChar = [] ∨ suffix.map toUpperChar = ['G']
        ∨ suffix.map toUpperChar = ['G', 'B'] →
      diskSizeGB (some (GoValue.VStr (String.mk (digits ++ suffix))))
        = some ((digitsToNat digits : ℚ)))
    ∧ (suffix.map toUpperChar = ['M'] ∨ suffix.map toUpperChar = ['M', 'B'] →
      diskSizeGB (some (GoValue.VStr (String.mk (digits ++ suffix))))
        = some ((digitsToNat digits : ℚ) / 1000))
    ∧ (suffix.map toUpperChar = ['K'] ∨ suffix.map toUpperChar = ['K', 'B'] →
      diskSizeGB (some (GoValue.VStr (String.mk (digits ++ suffix))))
        = some ((digitsToNat digits : ℚ) / 1000000)))
    ∧ (∀ q, diskSizeGB (some (GoValue.VFloat q)) = some q)
    ∧ (∀ n, diskSizeGB (some (GoValue.VInt n)) = some 0)
    ∧ (∀ b, diskSizeGB (some (GoValue.VBool b)) = some 0)
    ∧ diskSizeGB none = some 0 := by
  refine ⟨⟨?_, ?_, ?_⟩, fun q => rfl, fun n => rfl, fun b => rfl, rfl⟩
  · intro hs
    rcases hs with hs | hs | hs <;>
      rw [diskSizeGB_str_eval digits suffix hne hdig (by rw [hs]; decide)
          (by rw [hs]; decide), hs] <;>
      simp [applySuffix]
  · intro hs
    rcases hs with hs | hs <;>
      rw [diskSizeGB_str_eval digits suffix hne hdig (by rw [hs]; decide)
          (by rw [hs]; decide), hs] <;>
      simp [applySuffix]
  · intro hs
    rcases hs with hs | hs <;>
      rw [diskSizeGB_str_eval digits suffix hne hdig (by rw [hs]; decide)
          (by rw [hs]; decide), hs] <;>
      simp [applySuffix]

theorem diskSizeGB_unit_conversion_witness :
    ((['1', '0'] : List Char) ≠ []
      ∧ (∀ c ∈ (['1', '0'] : List Char), isDigitChar c = true))
    ∧ (((['g', 'b'].map toUpperChar = [] ∨ ['g', 'b'].map toUpperChar = ['G']
          ∨ ['g', 'b'].map toUpperChar = ['G', 'B'] →
        diskSizeGB (some (GoValue.VStr (String.mk (['1', '0'] ++ ['g', 'b']))))
          = some ((digitsToNat ['1', '0'] : ℚ)))
      ∧ (['g', 'b'].map toUpperChar = ['M']
          ∨ ['g', 'b'].map toUpperChar = ['M', 'B'] →
        diskSizeGB (some (GoValue.VStr (String.mk (['1', '0'] ++ ['g', 'b']))))
          = some ((digitsToNat ['1', '0'] : ℚ) / 1000))
      ∧ (['g', 'b'].map toUpperChar = ['K']
          ∨ ['g', 'b'].map toUpperChar = ['K', 'B'] →
        diskSizeGB (some (GoValue.VStr (String.mk (['1', '0'] ++ ['g', 'b']))))
          = some ((digitsToNat ['1', '0'] : ℚ) / 1000000)))
      ∧ (∀ q, diskSizeGB (some (GoValue.VFloat q)) = some q)
      ∧ (∀ n, diskSizeGB (some (GoValue.VInt n)) = some 0)
      ∧ (∀ b, diskSizeGB (some (GoValue.VBool b)) = some 0)
      ∧ diskSizeGB none = some 0) :=
  ⟨⟨by decide, by decide⟩,
    diskSizeGB_unit_conversion ['1', '0'] ['g', 'b'] (by decide) (by decide)⟩

/-! ## `prepareDiskSize` (`resource_vm_qemu.go`) -/

/-- The external API calls issued by the lifecycle code, in issue order. -/
inductive ApiCall where
  | getVmRefByName (name : String)
  | cloneVm
  | createVm
  | updateConfig
  | stopVm
  | startVm
  | readVmConfig
  | resizeQemuDisk (diskName : String) (amount : Int)
  | sleepSecs (n : Int)
deriving DecidableEq, Repr

inductive PrepResult where
  | ok
  | err
  | panic
deriving DecidableEq, Repr

/-- Model of `fmt.Sprintf` with verb `%v` on an `interface{}` value; Go renders a
missing map entry (`nil`) as `<nil>`.  The rational case stands in for Go's
float formatting, which never occurs for the string-typed `type`
attribute. -/
def goFormatValue (v : Option GoValue) : String :=
  match v with
  | some (GoValue.VStr s) => s
  | some (GoValue.VInt n) => toString n
  | some (GoValue.VBool b) => if b then "true" else "false"
  | some (GoValue.VFloat q) => toString q
  | none => "<nil>"

/-- The loop of `prepareDiskSize` over the declared disk map; the list
order stands for Go's (unspecified) map iteration order.  `resizeOk` is
the success oracle for `client.ResizeQemuDisk`.  Mirrors the source: the
declared size is parsed (and can panic) before the slot id is checked
against the reported configuration; a missing slot id returns the current
`err`, which is nil at that point, so the loop reports success. -/
def prepareDiskSizeLoop (resizeOk : String → Int → Bool)
    (cloned : QemuDevices) : QemuDevices → List ApiCall × PrepResult
  | [] => ([], PrepResult.ok)
  | (diskID, diskConf) :: rest =>
    let diskName := goFormatValue (lookupA diskConf "type") ++ toString diskID
    match diskSizeGB (lookupA diskConf "size") with
    | none => ([], PrepResult.panic)
    | some diskSize =>
      match lookupA cloned diskID with
      | none => ([], PrepResult.ok)
      | some clonedConf =>
        match diskSizeGB (lookupA clonedConf "size") with
        | none => ([], PrepResult.panic)
        | some clonedDiskSize =>
          if diskSize > clonedDiskSize then
            if resizeOk diskName ⌈diskSize - clonedDiskSize⌉ then
              let res := prepareDiskSizeLoop resizeOk cloned rest
              (ApiCall.resizeQemuDisk diskName ⌈diskSize - clonedDiskSize⌉
                :: res.1, res.2)
            else
              ([ApiCall.resizeQemuDisk diskName ⌈diskSize - clonedDiskSize⌉],
                PrepResult.err)
          else prepareDiskSizeLoop resizeOk cloned rest

/-- The function `prepareDiskSize`: read the current VM configuration from the API
(`NewConfigQemuFromApi`, an external client call; `none` models its error),
then walk the declared disks, growing any whose declared size exceeds the
reported one. -/
def prepareDiskSize (apiConfig : Option QemuDevices)
    (resizeOk : String → Int → Bool) (diskConfMap : QemuDevices) :
    List ApiCall × PrepResult :=
  match apiConfig with
  | none => ([ApiCall.readVmConfig], PrepResult.err)
  | some cloned =>
    let res := prepareDiskSizeLoop resizeOk cloned diskConfMap
    (ApiCall.readVmConfig :: res.1, res.2)

/-- A declared disk entry that the loop processes without stopping: its
size parses, its slot id is reported, the reported size parses, and the
resize call (when one is due) succeeds. -/
def diskEntryClean (resizeOk : String → Int → Bool) (cloned : QemuDevices)
    (p : Int × DeviceConf) : Prop :=
  (diskSizeGB (lookupA p.2 "size")).isSome = true
  ∧ (lookupA cloned p.1).isSome = true
  ∧ (diskSizeGB (lookupA ((lookupA cloned p.1).getD []) "size")).isSome
      = true
  ∧ ((diskSizeGB (lookupA ((lookupA cloned p.1).getD []) "size")).getD 0
        < (diskSizeGB (lookupA p.2 "size")).getD 0 →
      resizeOk (goFormatValue (lookupA p.2 "type") ++ toString p.1)
        ⌈(diskSizeGB (lookupA p.2 "size")).getD 0
          - (diskSizeGB (lookupA ((lookupA cloned p.1).getD []) "size")).getD
              0⌉ = true)

instance (resizeOk : String → Int → Bool) (cloned : QemuDevices)
    (p : Int × DeviceConf) : Decidable (diskEntryClean resizeOk cloned p) := by
  unfold diskEntryClean
  infer_instance

/-- The resize call the loop is expected to issue for one declared disk:
present exactly when the declared size strictly exceeds the reported one,
with amount the ceiling of the difference in GB. -/
def expectedResize (cloned : QemuDevices) (p : Int × DeviceConf) :
    Option ApiCall :=
  match diskSizeGB (lookupA p.2 "size"),
      (lookupA cloned p.1).bind (fun c => diskSizeGB (lookupA c "size")) with
  | some d, some cs =>
    if cs < d then
      some (ApiCall.resizeQemuDisk
        (goFormatValue (lookupA p.2 "type") ++ toString p.1) ⌈d - cs⌉)
    else none
  | _, _ => none

theorem prepareDiskSizeLoop_cons_clean (resizeOk : String → Int → Bool)
    (cloned : QemuDevices) (diskID : Int) (diskConf : DeviceConf)
    (rest : QemuDevices)
    (hc : diskEntryClean resizeOk cloned (diskID, diskConf)) :
    prepareDiskSizeLoop resizeOk cloned ((diskID, diskConf) :: rest)
      = ((expectedResize cloned (diskID, diskConf)).toList
          ++ (prepareDiskSizeLoop resizeOk cloned rest).1,
         (prepareDiskSizeLoop resizeOk cloned rest).2) := by
  obtain ⟨h1, h2, h3, h4⟩ := hc
  rcases hds : diskSizeGB (lookupA diskConf "size") with _ | d
  · rw [hds] at h1
    cases h1
  rcases hcl : lookupA cloned diskID with _ | c
  · rw [hcl] at h2
    cases h2
  rcases hcs : diskSizeGB (lookupA c "size") with _ | cs
  · rw [hcl] at h3
    simp only [Option.getD_some] at h3
    rw [hcs] at h3
    cases h3
  simp only [hcl, Option.getD_some, hcs, hds] at h4
  by_cases hgt : cs < d
  · have hro := h4 hgt
    simp [prepareDiskSizeLoop, expectedResize, hds, hcl, hcs, hgt, hro]
  · simp [prepareDiskSizeLoop, expectedResize, hds, hcl, hcs, hgt]

theorem prepareDiskSizeLoop_clean (resizeOk : String → Int → Bool)
    (cloned : QemuDevices) :
    ∀ disks : QemuDevices,
      (∀ p ∈ disks, diskEntryClean resizeOk cloned p) →
      prepareDiskSizeLoop resizeOk cloned disks
        = (disks.filterMap (expectedResize cloned), PrepResult.ok) := by
  intro disks
  induction disks with
  | nil =>
    intro _
    rfl
  | cons p rest ih =>
    intro h
    obtain ⟨diskID, diskConf⟩ := p
    rw [prepareDiskSizeLoop_cons_clean resizeOk cloned diskID diskConf rest
        (h _ (List.mem_cons_self _ _)),
      ih (fun q hq => h q (List.mem_cons_of_mem _ hq)),
      List.filterMap_cons]
    cases hexp : expectedResize cloned (diskID, diskConf) <;> simp [hexp]

theorem prepareDiskSizeLoop_resize_pos (ro : String → Int → Bool)
    (cl : QemuDevices) :
    ∀ (dks : QemuDevices) (s : String) (n : Int),
      ApiCall.resizeQemuDisk s n ∈ (prepareDiskSizeLoop ro cl dks).1 →
      0 < n := by
  intro dks
  induction dks with
  | nil =>
    intro s n h
    simp [prepareDiskSizeLoop] at h
  | cons p rest ih =>
    intro s n h
    obtain ⟨diskID, diskConf⟩ := p
    rcases hds : diskSizeGB (lookupA diskConf "size") with _ | d
    · simp [prepareDiskSizeLoop, hds] at h
    rcases hcl : lookupA cl diskID with _ | c
    · simp [prepareDiskSizeLoop, hds, hcl] at h
    rcases hcs : diskSizeGB (lookupA c "size") with _ | cs
    · simp [prepareDiskSizeLoop, hds, hcl, hcs] at h
    by_cases hgt : cs < d
    · have hpos : 0 < ⌈d - cs⌉ := Int.ceil_pos.mpr (sub_pos.mpr hgt)
      by_cases hro : ro (goFormatValue (lookupA diskConf "type")
          ++ toString diskID) ⌈d - cs⌉ = true
      · simp only [prepareDiskSizeLoop, hds, hcl, hcs, if_pos hgt,
          if_pos hro] at h
        rcases List.mem_cons.mp h with he | hmem
        · injection he with he1 he2
          rw [he2]
          exact hpos
        · exact ih s n hmem
      · simp only [prepareDiskSizeLoop, hds, hcl, hcs, if_pos hgt,
          if_neg hro] at h
        rcases List.mem_cons.mp h with he | hmem
        · injection he with he1 he2
          rw [he2]
          exact hpos
        · simp at hmem
    · simp only [prepareDiskSizeLoop, hds, hcl, hcs, if_neg hgt] at h
      exact ih s n h

/-- Declared disks for the C7 counterexample: disk 1 is absent from the
reported configuration and is iterated first; disk 2 is present and has
grown from 10G to 20G. -/
def c7disks : QemuDevices :=
  [(1, [("type", GoValue.VStr "virtio"), ("size", GoValue.VStr "10G")]),
   (2, [("type", GoValue.VStr "virtio"), ("size", GoValue.VStr "20G")])]

def c7cloned : QemuDevices := [(2, [("size", GoValue.VStr "10G")])]

/-- C7 counterexample: declared disk 2 is present in the reported
configuration with declared size 20 GB strictly above the reported 10 GB,
yet no resize call is issued — the loop reaches declared disk 1, whose
slot id is absent from the report, and returns success early. -/
theorem prepareDiskSize_skips_present_disk :
    (lookupA c7cloned 2).isSome = true
    ∧ diskSizeGB (lookupA ([("type", GoValue.VStr "virtio"),
        ("size", GoValue.VStr "20G")] : DeviceConf) "size") = some 20
    ∧ diskSizeGB (lookupA ([("size", GoValue.VStr "10G")] : DeviceConf)
        "size") = some 10
    ∧ prepareDiskSize (some c7cloned) (fun _ _ => true) c7disks
        = ([ApiCall.readVmConfig], PrepResult.ok) := by decide

/-- C7, amended: when every declared disk's slot id is present in the
reported configuration, the sizes parse and resize calls succeed,
`prepareDiskSize` issues a resize for exactly those disks whose declared
size strictly exceeds the reported one, with amount the ceiling of the
difference in GB (`expectedResize`); and unconditionally every issued
resize amount is positive, so no disk is ever shrunk. -/
theorem prepareDiskSize_resize_iff (resizeOk : String → Int → Bool)
    (cloned disks : QemuDevices)
    (hclean : ∀ p ∈ disks, diskEntryClean resizeOk cloned p) :
    prepareDiskSize (some cloned) resizeOk disks
      = (ApiCall.readVmConfig :: disks.filterMap (expectedResize cloned),
         PrepResult.ok)
    ∧ (∀ (ro : String → Int → Bool) (cl dks : QemuDevices) (s : String)
        (n : Int),
        ApiCall.resizeQemuDisk s n ∈ (prepareDiskSize (some cl) ro dks).1 →
        0 < n) := by
  constructor
  · show (ApiCall.readVmConfig
        :: (prepareDiskSizeLoop resizeOk cloned disks).1,
      (prepareDiskSizeLoop resizeOk cloned disks).2) = _
    rw [prepareDiskSizeLoop_clean resizeOk cloned disks hclean]
  · intro ro cl dks s n h
    have h2 : (prepareDiskSize (some cl) ro dks).1
        = ApiCall.readVmConfig :: (prepareDiskSizeLoop ro cl dks).1 := rfl
    rw [h2] at h
    rcases List.mem_cons.mp h with he | hmem
    · cases he
    · exact prepareDiskSizeLoop_resize_pos ro cl dks s n hmem

/-- Concrete inputs for the C7 amended-claim witness: disk 1 has grown
(resized by ceil(20 - 10) = 10), disk 2 has not. -/
def c7wdisks : QemuDevices :=
  [(1, [("type", GoValue.VStr "virtio"), ("size", GoValue.VStr "20G")]),
   (2, [("type", GoValue.VStr "scsi"), ("size", GoValue.VStr "5G")])]

def c7wcloned : QemuDevices :=
  [(1, [("size", GoValue.VStr "10G")]), (2, [("size", GoValue.VStr "5G")])]

theorem prepareDiskSize_resize_iff_witness :
    (∀ p ∈ c7wdisks, diskEntryClean (fun _ _ => true) c7wcloned p)
    ∧ (prepareDiskSize (some c7wcloned) (fun _ _ => true) c7wdisks
        = (ApiCall.readVmConfig
            :: c7wdisks.filterMap (expectedResize c7wcloned),
           PrepResult.ok)
      ∧ (∀ (ro : String → Int → Bool) (cl dks : QemuDevices) (s : String)
          (n : Int),
          ApiCall.resizeQemuDisk s n ∈ (prepareDiskSize (some cl) ro dks).1 →
          0 < n)) :=
  ⟨by decide,
    prepareDiskSize_resize_iff (fun _ _ => true) c7wcloned c7wdisks
      (by decide)⟩

theorem prepareDiskSizeLoop_missing (resizeOk : String → Int → Bool)
    (cloned : QemuDevices) :
    ∀ (pre : QemuDevices) (dID : Int) (dconf : DeviceConf)
      (rest : QemuDevices),
      (∀ p ∈ pre, diskEntryClean resizeOk cloned p) →
      lookupA cloned dID = none →
      (diskSizeGB (lookupA dconf "size")).isSome = true →
      prepareDiskSizeLoop resizeOk cloned (pre ++ (dID, dconf) :: rest)
        = ((prepareDiskSizeLoop resizeOk cloned pre).1, PrepResult.ok) := by
  intro pre
  induction pre with
  | nil =>
    intro dID dconf rest _ hd hdp
    rcases hds : diskSizeGB (lookupA dconf "size") with _ | d
    · rw [hds] at hdp
      cases hdp
    · simp [prepareDiskSizeLoop, hds, hd]
  | cons p pre2 ih =>
    intro dID dconf rest hpre hd hdp
    obtain ⟨diskID, diskConf⟩ := p
    rw [List.cons_append,
      prepareDiskSizeLoop_cons_clean resizeOk cloned diskID diskConf _
        (hpre _ (List.mem_cons_self _ _)),
      ih dID dconf rest (fun q hq => hpre q (List.mem_cons_of_mem _ hq))
        hd hdp,
      prepareDiskSizeLoop_cons_clean resizeOk cloned diskID diskConf pre2
        (hpre _ (List.mem_cons_self _ _))]

/-- C8: when the loop reaches a declared disk whose slot id is absent from
the API-reported configuration, `prepareDiskSize` returns nil (success) at
that point, issuing no resize for that disk and not processing any of the
remaining declared disks.  The hypotheses make the early return reachable:
the declared disks iterated before it process cleanly, and the absent
disk's declared size parses (it is read before the presence check). -/
theorem prepareDiskSize_missing_disk (resizeOk : String → Int → Bool)
    (cloned : QemuDevices) (pre : QemuDevices) (dID : Int)
    (dconf : DeviceConf) (rest : QemuDevices)
    (hpre : ∀ p ∈ pre, diskEntryClean resizeOk cloned p)
    (hd : lookupA cloned dID = none)
    (hdp : (diskSizeGB (lookupA dconf "size")).isSome = true) :
    prepareDiskSize (some cloned) resizeOk (pre ++ (dID, dconf) :: rest)
      = (ApiCall.readVmConfig
          :: (prepareDiskSizeLoop resizeOk cloned pre).1, PrepResult.ok) := by
  show (ApiCall.readVmConfig
      :: (prepareDiskSizeLoop resizeOk cloned
          (pre ++ (dID, dconf) :: rest)).1,
    (prepareDiskSizeLoop resizeOk cloned (pre ++ (dID, dconf) :: rest)).2)
      = _
  rw [prepareDiskSizeLoop_missing resizeOk cloned pre dID dconf rest hpre
    hd hdp]

/-- Concrete inputs for the C8 witness: declared disk 1 processes cleanly,
declared disk 5 is absent from the report, declared disk 6 follows it. -/
def c8disks : QemuDevices :=
  [(1, [("type", GoValue.VStr "virtio"), ("size", GoValue.VStr "20G")])]

def c8cloned : QemuDevices := [(1, [("size", GoValue.VStr "10G")])]

theorem prepareDiskSize_missing_disk_witness :
    ((∀ p ∈ c8disks, diskEntryClean (fun _ _ => true) c8cloned p)
      ∧ lookupA c8cloned 5 = none
      ∧ (diskSizeGB (lookupA ([("size", GoValue.VStr "1G")] : DeviceConf)
          "size")).isSome = true)
    ∧ prepareDiskSize (some c8cloned) (fun _ _ => true)
        (c8disks ++ (5, [("size", GoValue.VStr "1G")])
          :: [(6, [("size", GoValue.VStr "9G")])])
      = (ApiCall.readVmConfig
          :: (prepareDiskSizeLoop (fun _ _ => true) c8cloned c8disks).1,
         PrepResult.ok) :=
  ⟨⟨by decide, by decide, by decide⟩,
    prepareDiskSize_missing_disk (fun _ _ => true) c8cloned c8disks 5
      [("size", GoValue.VStr "1G")] [(6, [("size", GoValue.VStr "9G")])]
      (by decide) (by decide) (by decide)⟩

/-! ## `resourceVmQemuCreate` (`resource_vm_qemu.go`) -/

inductive CreateResult where
  | ok
  | err
  | panic
deriving DecidableEq, Repr

/-- The fields of a `pxapi.VmRef` that the create path reads. -/
structure VmRefInfo where
  vmId : Int
  node : String
deriving DecidableEq, Repr

/-- The configuration fields of `resourceVmQemuCreate` that steer its
control flow; the remaining schema fields only populate the `ConfigQemu`
payload of the clone/create/update calls and are irrelevant to the call
sequence. -/
structure CreateInput where
  name : String
  targetNode : String
  clone : String
  iso : String
  forceCreate : Bool
  cloneWait : Int
  disks : QemuDevices

/-- Responses of the external collaborators.  `dupLookup` answers
`client.GetVmRefByName(vmName)` (its error is discarded by the source);
`nextIdOk` models `nextVmId`, which lives in `provider.go` outside the
given sources and records no API call of its own here; `apiConfig` answers
`NewConfigQemuFromApi` inside `prepareDiskSize`; `resizeOk` is the
per-call success oracle for `client.ResizeQemuDisk`; the remaining booleans
are the success of the correspondingly named client calls. -/
structure CreateEnv where
  dupLookup : Option VmRefInfo
  nextIdOk : Bool
  cloneLookupOk : Bool
  cloneOk : Bool
  updateOk : Bool
  createOk : Bool
  startOk : Bool
  apiConfig : Option QemuDevices
  resizeOk : String → Int → Bool

/-- The tail every path reaching `d.SetId` executes: a fixed 15 s sleep,
then `StartVm`, whose error is the only remaining failure. -/
def finishStart (env : CreateEnv) (tr : List ApiCall) :
    List ApiCall × CreateResult :=
  if env.startOk then
    (tr ++ [ApiCall.sleepSecs 15, ApiCall.startVm], CreateResult.ok)
  else
    (tr ++ [ApiCall.sleepSecs 15, ApiCall.startVm], CreateResult.err)

/-- The function `resourceVmQemuCreate` as the sequence of external API calls it issues
plus its outcome.  Mirrors the source: duplicate-name check; on a
duplicate, an error when `force_create` is set or the node differs,
otherwise recycle (`StopVm` with its error ignored, `UpdateConfig`, a fixed
5 s sleep, `prepareDiskSize`); without a duplicate, `nextVmId`, then clone
(source lookup, `CloneVm`, `UpdateConfig`, a `clone_wait` sleep,
`prepareDiskSize`) when `clone` is set, else `CreateVm` when `iso` is set,
else an error; finally a fixed 15 s sleep and `StartVm`. -/
def resourceVmQemuCreate (inp : CreateInput) (env : CreateEnv) :
    List ApiCall × CreateResult :=
  match env.dupLookup with
  | some dupVmr =>
    if inp.forceCreate then
      ([ApiCall.getVmRefByName inp.name], CreateResult.err)
    else if dupVmr.node ≠ inp.targetNode then
      ([ApiCall.getVmRefByName inp.name], CreateResult.err)
    else
      if !env.updateOk then
        ([ApiCall.getVmRefByName inp.name, ApiCall.stopVm,
          ApiCall.updateConfig], CreateResult.err)
      else
        match prepareDiskSize env.apiConfig env.resizeOk inp.disks with
        | (ptr, PrepResult.panic) =>
          ([ApiCall.getVmRefByName inp.name, ApiCall.stopVm,
            ApiCall.updateConfig, ApiCall.sleepSecs 5] ++ ptr,
           CreateResult.panic)
        | (ptr, PrepResult.err) =>
          ([ApiCall.getVmRefByName inp.name, ApiCall.stopVm,
            ApiCall.updateConfig, ApiCall.sleepSecs 5] ++ ptr,
           CreateResult.err)
        | (ptr, PrepResult.ok) =>
          finishStart env
            ([ApiCall.getVmRefByName inp.name, ApiCall.stopVm,
              ApiCall.updateConfig, ApiCall.sleepSecs 5] ++ ptr)
  | none =>
    if !env.nextIdOk then
      ([ApiCall.getVmRefByName inp.name], CreateResult.err)
    else if inp.clone ≠ "" then
      if !env.cloneLookupOk then
        ([ApiCall.getVmRefByName inp.name, ApiCall.getVmRefByName inp.clone],
         CreateResult.err)
      else if !env.cloneOk then
        ([ApiCall.getVmRefByName inp.name, ApiCall.getVmRefByName inp.clone,
          ApiCall.cloneVm], CreateResult.err)
      else if !env.updateOk then
        ([ApiCall.getVmRefByName inp.name, ApiCall.getVmRefByName inp.clone,
          ApiCall.cloneVm, ApiCall.updateConfig], CreateResult.err)
      else
        match prepareDiskSize env.apiConfig env.resizeOk inp.disks with
        | (ptr, PrepResult.panic) =>
          ([ApiCall.getVmRefByName inp.name,
            ApiCall.getVmRefByName inp.clone, ApiCall.cloneVm,
            ApiCall.updateConfig, ApiCall.sleepSecs inp.cloneWait] ++ ptr,
           CreateResult.panic)
        | (ptr, PrepResult.err) =>
          ([ApiCall.getVmRefByName inp.name,
            ApiCall.getVmRefByName inp.clone, ApiCall.cloneVm,
            ApiCall.updateConfig, ApiCall.sleepSecs inp.cloneWait] ++ ptr,
           CreateResult.err)
        | (ptr, PrepResult.ok) =>
          finishStart env
            ([ApiCall.getVmRefByName inp.name,
              ApiCall.getVmRefByName inp.clone, ApiCall.cloneVm,
              ApiCall.updateConfig, ApiCall.sleepSecs inp.cloneWait] ++ ptr)
    else if inp.iso ≠ "" then
      if !env.createOk then
        ([ApiCall.getVmRefByName inp.name, ApiCall.createVm],
         CreateResult.err)
      else
        finishStart env [ApiCall.getVmRefByName inp.name, ApiCall.createVm]
    else ([ApiCall.getVmRefByName inp.name], CreateResult.err)

/-- C5: every successful Create issues its external calls in the
documented order — the duplicate-name check first; then on the fresh paths
either clone (preceded by the clone-source lookup) or create-from-iso; on
the clone and recycle paths a config update followed by a fixed sleep and
the disk-resize pass; and finally the fixed 15 s sleep and the VM start —
with no retry or backoff: the trace equals the fixed sequence shown, every
call appearing exactly once apart from the resize calls of the resize
pass. -/
theorem create_success_call_order (inp : CreateInput) (env : CreateEnv)
    (h : (resourceVmQemuCreate inp env).2 = CreateResult.ok) :
    (env.dupLookup = none ∧ inp.clone ≠ ""
      ∧ (prepareDiskSize env.apiConfig env.resizeOk inp.disks).2
          = PrepResult.ok
      ∧ (resourceVmQemuCreate inp env).1
        = [ApiCall.getVmRefByName inp.name,
           ApiCall.getVmRefByName inp.clone, ApiCall.cloneVm,
           ApiCall.updateConfig, ApiCall.sleepSecs inp.cloneWait]
          ++ (prepareDiskSize env.apiConfig env.resizeOk inp.disks).1
          ++ [ApiCall.sleepSecs 15, ApiCall.startVm])
    ∨ (env.dupLookup = none ∧ inp.clone = "" ∧ inp.iso ≠ ""
      ∧ (resourceVmQemuCreate inp env).1
        = [ApiCall.getVmRefByName inp.name, ApiCall.createVm,
           ApiCall.sleepSecs 15, ApiCall.startVm])
    ∨ ((∃ dupVmr, env.dupLookup = some dupVmr)
      ∧ (prepareDiskSize env.apiConfig env.resizeOk inp.disks).2
          = PrepResult.ok
      ∧ (resourceVmQemuCreate inp env).1
        = [ApiCall.getVmRefByName inp.name, ApiCall.stopVm,
           ApiCall.updateConfig, ApiCall.sleepSecs 5]
          ++ (prepareDiskSize env.apiConfig env.resizeOk inp.disks).1
          ++ [ApiCall.sleepSecs 15, ApiCall.startVm]) := by
  rcases hdup : env.dupLookup with _ | dupVmr
  · cases hn : env.nextIdOk with
    | false => simp [resourceVmQemuCreate, hdup, hn] at h
    | true =>
      by_cases hc : inp.clone = ""
      · by_cases hi : inp.iso = ""
        · simp [resourceVmQemuCreate, hdup, hn, hc, hi] at h
        · cases hcr : env.createOk with
          | false => simp [resourceVmQemuCreate, hdup, hn, hc, hi, hcr] at h
          | true =>
            cases hs : env.startOk with
            | false =>
              simp [resourceVmQemuCreate, hdup, hn, hc, hi, hcr,
                finishStart, hs] at h
            | true =>
              refine Or.inr (Or.inl ⟨rfl, hc, hi, ?_⟩)
              simp [resourceVmQemuCreate, hdup, hn, hc, hi, hcr,
                finishStart, hs]
      · cases hcl : env.cloneLookupOk with
        | false => simp [resourceVmQemuCreate, hdup, hn, hc, hcl] at h
        | true =>
          cases hco : env.cloneOk with
          | false =>
            simp [resourceVmQemuCreate, hdup, hn, hc, hcl, hco] at h
          | true =>
            cases hu : env.updateOk with
            | false =>
              simp [resourceVmQemuCreate, hdup, hn, hc, hcl, hco, hu] at h
            | true =>
              rcases hprep : prepareDiskSize env.apiConfig env.resizeOk
                  inp.disks with ⟨ptr, pr⟩
              cases pr with
              | panic =>
                simp [resourceVmQemuCreate, hdup, hn, hc, hcl, hco, hu,
                  hprep] at h
              | err =>
                simp [resourceVmQemuCreate, hdup, hn, hc, hcl, hco, hu,
                  hprep] at h
              | ok =>
                cases hs : env.startOk with
                | false =>
                  simp [resourceVmQemuCreate, hdup, hn, hc, hcl, hco, hu,
                    hprep, finishStart, hs] at h
                | true =>
                  refine Or.inl ⟨rfl, hc, rfl, ?_⟩
                  simp [resourceVmQemuCreate, hdup, hn, hc, hcl, hco, hu,
                    hprep, finishStart, hs]
  · by_cases hf : inp.forceCreate = true
    · simp [resourceVmQemuCreate, hdup, hf] at h
    · by_cases hnode : dupVmr.node = inp.targetNode
      · cases hu : env.updateOk with
        | false => simp [resourceVmQemuCreate, hdup, hf, hnode, hu] at h
        | true =>
          rcases hprep : prepareDiskSize env.apiConfig env.resizeOk
              inp.disks with ⟨ptr, pr⟩
          cases pr with
          | panic =>
            simp [resourceVmQemuCreate, hdup, hf, hnode, hu, hprep] at h
          | err =>
            simp [resourceVmQemuCreate, hdup, hf, hnode, hu, hprep] at h
          | ok =>
            cases hs : env.startOk with
            | false =>
              simp [resourceVmQemuCreate, hdup, hf, hnode, hu, hprep,
                finishStart, hs] at h
            | true =>
              refine Or.inr (Or.inr ⟨⟨dupVmr, rfl⟩, rfl, ?_⟩)
              simp [resourceVmQemuCreate, hdup, hf, hnode, hu, hprep,
                finishStart, hs]
      · simp [resourceVmQemuCreate, hdup, hf, hnode] at h

/-- Environment and input for the C5 witness: a fresh create from iso with
every external call succeeding. -/
def c5env : CreateEnv :=
  { dupLookup := none
    nextIdOk := true
    cloneLookupOk := true
    cloneOk := true
    updateOk := true
    createOk := true
    startOk := true
    apiConfig := some []
    resizeOk := fun _ _ => true }

def c5inp : CreateInput :=
  { name := "web-1"
    targetNode := "node1"
    clone := ""
    iso := "local:iso/debian.iso"
    forceCreate := false
    cloneWait := 15
    disks := [] }

theorem create_success_call_order_witness :
    (resourceVmQemuCreate c5inp c5env).2 = CreateResult.ok
    ∧ ((c5env.dupLookup = none ∧ c5inp.clone ≠ ""
        ∧ (prepareDiskSize c5env.apiConfig c5env.resizeOk c5inp.disks).2
            = PrepResult.ok
        ∧ (resourceVmQemuCreate c5inp c5env).1
          = [ApiCall.getVmRefByName c5inp.name,
             ApiCall.getVmRefByName c5inp.clone, ApiCall.cloneVm,
             ApiCall.updateConfig, ApiCall.sleepSecs c5inp.cloneWait]
            ++ (prepareDiskSize c5env.apiConfig c5env.resizeOk c5inp.disks).1
            ++ [ApiCall.sleepSecs 15, ApiCall.startVm])
      ∨ (c5env.dupLookup = none ∧ c5inp.clone = "" ∧ c5inp.iso ≠ ""
        ∧ (resourceVmQemuCreate c5inp c5env).1
          = [ApiCall.getVmRefByName c5inp.name, ApiCall.createVm,
             ApiCall.sleepSecs 15, ApiCall.startVm])
      ∨ ((∃ dupVmr, c5env.dupLookup = some dupVmr)
        ∧ (prepareDiskSize c5env.apiConfig c5env.resizeOk c5inp.disks).2
            = PrepResult.ok
        ∧ (resourceVmQemuCreate c5inp c5env).1
          = [ApiCall.getVmRefByName c5inp.name, ApiCall.stopVm,
             ApiCall.updateConfig, ApiCall.sleepSecs 5]
            ++ (prepareDiskSize c5env.apiConfig c5env.resizeOk c5inp.disks).1
            ++ [ApiCall.sleepSecs 15, ApiCall.startVm])) :=
  ⟨by decide, create_success_call_order c5inp c5env (by decide)⟩

theorem prepareDiskSizeLoop_calls (ro : String → Int → Bool)
    (cl : QemuDevices) :
    ∀ (dks : QemuDevices) (c : ApiCall),
      c ∈ (prepareDiskSizeLoop ro cl dks).1 →
      ∃ s n, c = ApiCall.resizeQemuDisk s n := by
  intro dks
  induction dks with
  | nil =>
    intro c h
    simp [prepareDiskSizeLoop] at h
  | cons p rest ih =>
    intro c h
    obtain ⟨diskID, diskConf⟩ := p
    rcases hds : diskSizeGB (lookupA diskConf "size") with _ | d
    · simp [prepareDiskSizeLoop, hds] at h
    rcases hcl : lookupA cl diskID with _ | cc
    · simp [prepareDiskSizeLoop, hds, hcl] at h
    rcases hcs : diskSizeGB (lookupA cc "size") with _ | cs
    · simp [prepareDiskSizeLoop, hds, hcl, hcs] at h
    by_cases hgt : cs < d
    · by_cases hro : ro (goFormatValue (lookupA diskConf "type")
          ++ toString diskID) ⌈d - cs⌉ = true
      · simp only [prepareDiskSizeLoop, hds, hcl, hcs, if_pos hgt,
          if_pos hro] at h
        rcases List.mem_cons.mp h with he | hmem
        · exact ⟨_, _, he⟩
        · exact ih c hmem
      · simp only [prepareDiskSizeLoop, hds, hcl, hcs, if_pos hgt,
          if_neg hro] at h
        rcases List.mem_cons.mp h with he | hmem
        · exact ⟨_, _, he⟩
        · simp at hmem
    · simp only [prepareDiskSizeLoop, hds, hcl, hcs, if_neg hgt] at h
      exact ih c h

theorem prepareDiskSize_calls (apiConfig : Option QemuDevices)
    (ro : String → Int → Bool) (dks : QemuDevices) :
    ∀ c ∈ (prepareDiskSize apiConfig ro dks).1,
      c = ApiCall.readVmConfig ∨ ∃ s n, c = ApiCall.resizeQemuDisk s n := by
  intro c h
  cases apiConfig with
  | none =>
    simp [prepareDiskSize] at h
    exact Or.inl h
  | some cloned =>
    have h2 : (prepareDiskSize (some cloned) ro dks).1
        = ApiCall.readVmConfig :: (prepareDiskSizeLoop ro cloned dks).1 :=
      rfl
    rw [h2] at h
    rcases List.mem_cons.mp h with he | hmem
    · exact Or.inl he
    · exact Or.inr (prepareDiskSizeLoop_calls ro cloned dks c hmem)

theorem readVmConfig_mem_prepareDiskSize (apiConfig : Option QemuDevices)
    (ro : String → Int → Bool) (dks : QemuDevices) :
    ApiCall.readVmConfig ∈ (prepareDiskSize apiConfig ro dks).1 := by
  cases apiConfig with
  | none => simp [prepareDiskSize]
  | some cloned =>
    have h2 : (prepareDiskSize (some cloned) ro dks).1
        = ApiCall.readVmConfig :: (prepareDiskSizeLoop ro cloned dks).1 :=
      rfl
    rw [h2]
    exact List.mem_cons_self _ _

/-- C6: when the duplicate-name check finds an existing VM, Create returns
an error without issuing any clone, create or config-update call exactly
when `force_create` is set or the existing VM's node differs from
`target_node`; otherwise the existing VM is recycled: it is stopped and
reconfigured, no clone or create call is ever issued, and the disk-size
pass (which resizes grown disks) runs — witnessed by its configuration
read — whenever the recycle succeeds. -/
theorem create_duplicate_handling (inp : CreateInput) (env : CreateEnv)
    (dupVmr : VmRefInfo) (hdup : env.dupLookup = some dupVmr) :
    (((resourceVmQemuCreate inp env).2 = CreateResult.err
        ∧ ApiCall.cloneVm ∉ (resourceVmQemuCreate inp env).1
        ∧ ApiCall.createVm ∉ (resourceVmQemuCreate inp env).1
        ∧ ApiCall.updateConfig ∉ (resourceVmQemuCreate inp env).1)
      ↔ (inp.forceCreate = true ∨ dupVmr.node ≠ inp.targetNode))
    ∧ (inp.forceCreate = false → dupVmr.node = inp.targetNode →
        ApiCall.stopVm ∈ (resourceVmQemuCreate inp env).1
        ∧ ApiCall.updateConfig ∈ (resourceVmQemuCreate inp env).1
        ∧ ApiCall.cloneVm ∉ (resourceVmQemuCreate inp env).1
        ∧ ApiCall.createVm ∉ (resourceVmQemuCreate inp env).1
        ∧ ((resourceVmQemuCreate inp env).2 = CreateResult.ok →
            ApiCall.readVmConfig ∈ (resourceVmQemuCreate inp env).1)) := by
  by_cases hf : inp.forceCreate = true
  · have htr : resourceVmQemuCreate inp env
        = ([ApiCall.getVmRefByName inp.name], CreateResult.err) := by
      simp [resourceVmQemuCreate, hdup, hf]
    rw [htr]
    constructor
    · constructor
      · intro _
        exact Or.inl hf
      · intro _
        exact ⟨rfl, by simp, by simp, by simp⟩
    · intro hf2
      simp [hf2] at hf
  · by_cases hnode : dupVmr.node = inp.targetNode
    · -- recycle branch: updateConfig is always issued
      have hupd : ApiCall.updateConfig ∈ (resourceVmQemuCreate inp env).1
          ∧ ApiCall.stopVm ∈ (resourceVmQemuCreate inp env).1
          ∧ ApiCall.cloneVm ∉ (resourceVmQemuCreate inp env).1
          ∧ ApiCall.createVm ∉ (resourceVmQemuCreate inp env).1
          ∧ ((resourceVmQemuCreate inp env).2 = CreateResult.ok →
              ApiCall.readVmConfig ∈ (resourceVmQemuCreate inp env).1) := by
        have hptr := prepareDiskSize_calls env.apiConfig env.resizeOk
          inp.disks
        have hnc : ApiCall.cloneVm
            ∉ (prepareDiskSize env.apiConfig env.resizeOk inp.disks).1 := by
          intro hm
          rcases hptr _ hm with he | ⟨s, n, he⟩ <;> cases he
        have hncr : ApiCall.createVm
            ∉ (prepareDiskSize env.apiConfig env.resizeOk inp.disks).1 := by
          intro hm
          rcases hptr _ hm with he | ⟨s, n, he⟩ <;> cases he
        have hrd := readVmConfig_mem_prepareDiskSize env.apiConfig
          env.resizeOk inp.disks
        cases hu : env.updateOk with
        | false =>
          have htr : resourceVmQemuCreate inp env
              = ([ApiCall.getVmRefByName inp.name, ApiCall.stopVm,
                  ApiCall.updateConfig], CreateResult.err) := by
            simp [resourceVmQemuCreate, hdup, hf, hnode, hu]
          rw [htr]
          refine ⟨by simp, by simp, by simp, by simp, ?_⟩
          intro hok
          simp at hok
        | true =>
          rcases hprep : prepareDiskSize env.apiConfig env.resizeOk
              inp.disks with ⟨ptr, pr⟩
          rw [hprep] at hnc hncr hrd
          cases pr with
          | panic =>
            have htr : resourceVmQemuCreate inp env
                = ([ApiCall.getVmRefByName inp.name, ApiCall.stopVm,
                    ApiCall.updateConfig, ApiCall.sleepSecs 5] ++ ptr,
                   CreateResult.panic) := by
              simp [resourceVmQemuCreate, hdup, hf, hnode, hu, hprep]
            rw [htr]
            refine ⟨by simp, by simp, by simp [hnc], by simp [hncr], ?_⟩
            intro hok
            simp at hok
          | err =>
            have htr : resourceVmQemuCreate inp env
                = ([ApiCall.getVmRefByName inp.name, ApiCall.stopVm,
                    ApiCall.updateConfig, ApiCall.sleepSecs 5] ++ ptr,
                   CreateResult.err) := by
              simp [resourceVmQemuCreate, hdup, hf, hnode, hu, hprep]
            rw [htr]
            refine ⟨by simp, by simp, by simp [hnc], by simp [hncr], ?_⟩
            intro hok
            simp at hok
          | ok =>
            have htr : resourceVmQemuCreate inp env
                = finishStart env
                    ([ApiCall.getVmRefByName inp.name, ApiCall.stopVm,
                      ApiCall.updateConfig, ApiCall.sleepSecs 5] ++ ptr) := by
              simp [resourceVmQemuCreate, hdup, hf, hnode, hu, hprep]
            rw [htr]
            cases hs : env.startOk with
            | false =>
              simp only [finishStart, hs, Bool.false_eq_true, if_false]
              refine ⟨by simp, by simp, by simp [hnc], by simp [hncr], ?_⟩
              intro hok
              simp at hok
            | true =>
              simp only [finishStart, hs, if_true]
              exact ⟨by simp, by simp, by simp [hnc], by simp [hncr],
                fun _ => by simp [hrd]⟩
      refine ⟨?_, fun _ _ => ⟨hupd.2.1, hupd.1, hupd.2.2.1, hupd.2.2.2.1,
        hupd.2.2.2.2⟩⟩
      constructor
      · intro hlhs
        exact absurd hupd.1 hlhs.2.2.2
      · intro hrhs
        rcases hrhs with hrhs | hrhs
        · exact absurd hrhs hf
        · exact absurd hnode hrhs
    · have htr : resourceVmQemuCreate inp env
          = ([ApiCall.getVmRefByName inp.name], CreateResult.err) := by
        simp [resourceVmQemuCreate, hdup, hf, hnode]
      rw [htr]
      constructor
      · constructor
        · intro _
          exact Or.inr hnode
        · intro _
          exact ⟨rfl, by simp, by simp, by simp⟩
      · intro _ hnode2
        exact absurd hnode2 hnode

/-- Environment and input for the C6 witness: the duplicate check finds a
VM with the requested name on the same node with `force_create` unset, so
the VM is recycled. -/
def c6env : CreateEnv :=
  { dupLookup := some { vmId := 100, node := "node1" }
    nextIdOk := true
    cloneLookupOk := true
    cloneOk := true
    updateOk := true
    createOk := true
    startOk := true
    apiConfig := some []
    resizeOk := fun _ _ => true }

def c6inp : CreateInput :=
  { name := "web-1"
    targetNode := "node1"
    clone := ""
    iso := ""
    forceCreate := false
    cloneWait := 15
    disks := [] }

theorem create_duplicate_handling_witness :
    c6env.dupLookup = some { vmId := 100, node := "node1" }
    ∧ ((((resourceVmQemuCreate c6inp c6env).2 = CreateResult.err
          ∧ ApiCall.cloneVm ∉ (resourceVmQemuCreate c6inp c6env).1
          ∧ ApiCall.createVm ∉ (resourceVmQemuCreate c6inp c6env).1
          ∧ ApiCall.updateConfig ∉ (resourceVmQemuCreate c6inp c6env).1)
        ↔ (c6inp.forceCreate = true
            ∨ ({ vmId := 100, node := "node1" } : VmRefInfo).node
                ≠ c6inp.targetNode))
      ∧ (c6inp.forceCreate = false →
          ({ vmId := 100, node := "node1" } : VmRefInfo).node
              = c6inp.targetNode →
          ApiCall.stopVm ∈ (resourceVmQemuCreate c6inp c6env).1
          ∧ ApiCall.updateConfig ∈ (resourceVmQemuCreate c6inp c6env).1
          ∧ ApiCall.cloneVm ∉ (resourceVmQemuCreate c6inp c6env).1
          ∧ ApiCall.createVm ∉ (resourceVmQemuCreate c6inp c6env).1
          ∧ ((resourceVmQemuCreate c6inp c6env).2 = CreateResult.ok →
              ApiCall.readVmConfig ∈ (resourceVmQemuCreate c6inp c6env).1))) :=
  ⟨rfl, create_duplicate_handling c6inp c6env
    { vmId := 100, node := "node1" } rfl⟩

end ProxmoxTF
